import Mathlib

/-!
# Input handling of `lib/framework/wzapp.cpp`

A shallow embedding of the keyboard / mouse state tracker and of the circular
input buffer of `lib/framework/wzapp.cpp`, followed by theorems about them.

Conventions of the embedding

* The file-level statics of the source become the fields of `State`; every
  function of the source that reads or writes them becomes a function on `State`.
* C arrays are total functions on their index; a pointer into an array is the
  offset from the array's first element.
* `UDWORD` values are natural numbers; the one place where 32-bit wrap-around
  matters (the subtraction in `mousePressEvent`) reduces modulo `2 ^ 32` explicitly.
* Counted `for` loops are `forLoop`; the `while` loop of `inputAddBuffer` recurses on
  its counter, which strictly decreases in every iteration.
-/

namespace WzApp

/-! ## Data model -/

/-- The possible states for keys (`enum _key_state`). -/
inductive KEY_STATE
  | KEY_UP
  | KEY_PRESSED
  | KEY_DOWN
  | KEY_RELEASED
  | KEY_PRESSRELEASE
  | KEY_DOUBLECLICK
  | KEY_DRAG
  deriving DecidableEq, Repr

/-- Last state and last button-down timestamp of one key or button (`struct _input_state`). -/
structure INPUT_STATE where
  state : KEY_STATE
  lastdown : Nat
  deriving DecidableEq, Repr

/-- Constant for the interval between two single clicks for a double-click, in ms. -/
def DOUBLE_CLICK_INTERVAL : Nat := 250

/-- How far the mouse has to move to start a drag. -/
def DRAG_THRESHOLD : Int := 5

/-- The size of the input buffer. -/
def INPUT_MAXSTR : Nat := 512

/-- Number of entries of `aMouseState`. -/
def MOUSE_STATES : Nat := 6

/-- Enumerators that `wzapp.cpp` takes from headers that are not part of the sources at
hand (`KEY_MAXSCAN` of `KEY_CODE`, and the values of `MOUSE_KEY_CODE`).  They are
parameters of the embedding. -/
structure Decls where
  KEY_MAXSCAN : Nat
  MOUSE_LMB : Nat
  MOUSE_MMB : Nat
  MOUSE_RMB : Nat
  MOUSE_WUP : Nat
  MOUSE_WDN : Nat
  MOUSE_BAD : Nat
  deriving DecidableEq, Repr

/-- The toolkit's mouse buttons, as far as `buttonToIdx` tells them apart; `Other` stands
for every button that has no case of its own in the switch. -/
inductive MouseButton
  | NoButton
  | LeftButton
  | RightButton
  | MidButton
  | XButton1
  | XButton2
  | Other (n : Nat)
  deriving DecidableEq, Repr

/-- The statics of `wzapp.cpp` that the input functions use.  `pStartBuffer`, `pEndBuffer`
are offsets into `pInputBuffer`; `pCharStartBuffer`, `pCharEndBuffer` are offsets into
`pCharInputBuffer`. -/
structure State where
  aKeyState : Nat → INPUT_STATE
  dragKey : Nat
  dragX : Int
  dragY : Int
  aMouseState : Nat → INPUT_STATE
  pInputBuffer : Nat → Nat
  pStartBuffer : Nat
  pEndBuffer : Nat
  pCharInputBuffer : Nat → Nat
  pCharStartBuffer : Nat
  pCharEndBuffer : Nat
  currentChar : Nat
  mouseXPos : Nat
  mouseYPos : Nat
  screenWidth : Nat
  screenHeight : Nat

/-- The loop `for (i = 0; i < n; i++) body(i)` on a value threaded through the body. -/
def forLoop {α : Type} : Nat → (Nat → α → α) → α → α
  | 0, _, a => a
  | n + 1, body, a => body n (forLoop n body a)

/-- Assignment `arr[i].state = st`. -/
def setState (arr : Nat → INPUT_STATE) (i : Nat) (st : KEY_STATE) : Nat → INPUT_STATE :=
  Function.update arr i { arr i with state := st }

/-- Assignment `arr[i].lastdown = t`. -/
def setLastdown (arr : Nat → INPUT_STATE) (i : Nat) (t : Nat) : Nat → INPUT_STATE :=
  Function.update arr i { arr i with lastdown := t }

/-- The macro `ABSDIF(a, b)`, `((a) > (b) ? (a) - (b) : (b) - (a))`, of the framework's macro
header (not part of the sources at hand), on mathematical integers. -/
def ABSDIF (a b : Int) : Int :=
  if a > b then a - b else b - a

/-! ## Mouse and keyboard queries -/

/-- `mouseX()`. -/
def mouseX (s : State) : Nat := s.mouseXPos

/-- `mouseY()`. -/
def mouseY (s : State) : Nat := s.mouseYPos

/-- `mouseDown`: true if the mouse key is currently depressed. -/
def mouseDown (s : State) (code : Nat) : Bool :=
  decide ((s.aMouseState code).state ≠ KEY_STATE.KEY_UP)

/-- `mouseDClicked`: true if the mouse key was double clicked. -/
def mouseDClicked (s : State) (code : Nat) : Bool :=
  decide ((s.aMouseState code).state = KEY_STATE.KEY_DOUBLECLICK)

/-- `mousePressed`: true if the mouse key went from being up to being down this frame. -/
def mousePressed (s : State) (code : Nat) : Bool :=
  decide ((s.aMouseState code).state = KEY_STATE.KEY_PRESSED) ||
  decide ((s.aMouseState code).state = KEY_STATE.KEY_DOUBLECLICK) ||
  decide ((s.aMouseState code).state = KEY_STATE.KEY_PRESSRELEASE)

/-- `mouseReleased`: true if the mouse key went from being down to being up this frame. -/
def mouseReleased (s : State) (code : Nat) : Bool :=
  decide ((s.aMouseState code).state = KEY_STATE.KEY_RELEASED) ||
  decide ((s.aMouseState code).state = KEY_STATE.KEY_DOUBLECLICK) ||
  decide ((s.aMouseState code).state = KEY_STATE.KEY_PRESSRELEASE)

/-- `mouseDrag`: the drag start coordinates (converted to `UDWORD`) if `code` is dragging;
`none` stands for the return value `false`, which leaves the out-parameters alone. -/
def mouseDrag (s : State) (code : Nat) : Option (Nat × Nat) :=
  if (s.aMouseState code).state = KEY_STATE.KEY_DRAG then
    some ((s.dragX % 4294967296).toNat, (s.dragY % 4294967296).toNat)
  else
    none

/-- `keyDown`: true if the key is currently depressed. -/
def keyDown (s : State) (code : Nat) : Bool :=
  decide ((s.aKeyState code).state ≠ KEY_STATE.KEY_UP)

/-- `keyPressed`: true if the key went from being up to being down this frame. -/
def keyPressed (s : State) (code : Nat) : Bool :=
  decide ((s.aKeyState code).state = KEY_STATE.KEY_PRESSED) ||
  decide ((s.aKeyState code).state = KEY_STATE.KEY_PRESSRELEASE)

/-- `keyReleased`: true if the key went from being down to being up this frame. -/
def keyReleased (s : State) (code : Nat) : Bool :=
  decide ((s.aKeyState code).state = KEY_STATE.KEY_RELEASED) ||
  decide ((s.aKeyState code).state = KEY_STATE.KEY_PRESSRELEASE)

/-! ## Event handlers -/

/-- `WzMainWindow::mouseMoveEvent`; `x`, `y` are `event->x()`, `event->y()`, which the
assignment to the `uint16_t` statics reduces modulo `2 ^ 16`. -/
def mouseMoveEvent (d : Decls) (s : State) (x y : Int) : State :=
  let s1 := { s with mouseXPos := (x % 65536).toNat, mouseYPos := (y % 65536).toNat }
  if !mouseDown s1 d.MOUSE_MMB then
    if ((s1.aMouseState s1.dragKey).state = KEY_STATE.KEY_PRESSED ∨
        (s1.aMouseState s1.dragKey).state = KEY_STATE.KEY_DOWN)
        ∧ (ABSDIF s1.dragX s1.mouseXPos > DRAG_THRESHOLD ∨
           ABSDIF s1.dragY s1.mouseYPos > DRAG_THRESHOLD) then
      { s1 with aMouseState := setState s1.aMouseState s1.dragKey KEY_STATE.KEY_DRAG }
    else s1
  else s1

/-- `WzMainWindow::buttonToIdx`. -/
def buttonToIdx (d : Decls) (button : MouseButton) : Nat :=
  match button with
  | MouseButton.LeftButton => d.MOUSE_LMB
  | MouseButton.RightButton => d.MOUSE_RMB
  | MouseButton.MidButton => d.MOUSE_MMB
  | MouseButton.XButton1 => d.MOUSE_MMB
  | MouseButton.XButton2 => d.MOUSE_MMB
  | _ => d.MOUSE_BAD

/-- `WzMainWindow::mousePressEvent`; `button` is `event->button()`, `pressesMid` is
`event->buttons().testFlag(Qt::MidButton)` and `gameTime` the value of the global game
clock (a `UDWORD`) when the event is handled. -/
def mousePressEvent (d : Decls) (s : State) (button : MouseButton) (pressesMid : Bool)
    (gameTime : Nat) : State :=
  let idx := buttonToIdx d button
  if idx = d.MOUSE_BAD then s
  else if (s.aMouseState idx).state = KEY_STATE.KEY_UP
      ∨ (s.aMouseState idx).state = KEY_STATE.KEY_RELEASED
      ∨ (s.aMouseState idx).state = KEY_STATE.KEY_PRESSRELEASE then
    let s1 :=
      if !pressesMid then
        if (gameTime + 4294967296 - (s.aMouseState idx).lastdown) % 4294967296
            < DOUBLE_CLICK_INTERVAL then
          { s with
            aMouseState :=
              setLastdown (setState s.aMouseState idx KEY_STATE.KEY_DOUBLECLICK) idx 0 }
        else
          { s with
            aMouseState :=
              setLastdown (setState s.aMouseState idx KEY_STATE.KEY_PRESSED) idx gameTime }
      else
        { s with
          aMouseState :=
            setLastdown (setState s.aMouseState idx KEY_STATE.KEY_PRESSED) idx 0 }
    if idx < 2 then
      { s1 with dragKey := idx, dragX := (mouseX s1 : Int), dragY := (mouseY s1 : Int) }
    else s1
  else s

/-- `WzMainWindow::wheelEvent`; `direction` is `event->delta()`. -/
def wheelEvent (d : Decls) (s : State) (direction : Int) (gameTime : Nat) : State :=
  if direction > 0 then
    { s with
      aMouseState :=
        setLastdown (setState s.aMouseState d.MOUSE_WUP KEY_STATE.KEY_PRESSED)
          d.MOUSE_WUP gameTime }
  else
    { s with
      aMouseState :=
        setLastdown (setState s.aMouseState d.MOUSE_WDN KEY_STATE.KEY_PRESSED)
          d.MOUSE_WDN gameTime }

/-- `WzMainWindow::mouseReleaseEvent`. -/
def mouseReleaseEvent (d : Decls) (s : State) (button : MouseButton) : State :=
  let idx := buttonToIdx d button
  if idx = d.MOUSE_BAD then s
  else if (s.aMouseState idx).state = KEY_STATE.KEY_PRESSED then
    { s with aMouseState := setState s.aMouseState idx KEY_STATE.KEY_PRESSRELEASE }
  else if (s.aMouseState idx).state = KEY_STATE.KEY_DOWN
      ∨ (s.aMouseState idx).state = KEY_STATE.KEY_DRAG
      ∨ (s.aMouseState idx).state = KEY_STATE.KEY_DOUBLECLICK then
    { s with aMouseState := setState s.aMouseState idx KEY_STATE.KEY_RELEASED }
  else s

/-- `setKey`; the returned code is the second component. -/
def setKey (s : State) (code : Nat) (pressed : Bool) : State × Nat :=
  if pressed then
    if (s.aKeyState code).state = KEY_STATE.KEY_UP ∨
        (s.aKeyState code).state = KEY_STATE.KEY_RELEASED ∨
        (s.aKeyState code).state = KEY_STATE.KEY_PRESSRELEASE then
      ({ s with
          aKeyState :=
            setLastdown (setState s.aKeyState code KEY_STATE.KEY_PRESSED) code 0 }, code)
    else (s, code)
  else
    if (s.aKeyState code).state = KEY_STATE.KEY_PRESSED then
      ({ s with aKeyState := setState s.aKeyState code KEY_STATE.KEY_PRESSRELEASE }, code)
    else if (s.aKeyState code).state = KEY_STATE.KEY_DOWN then
      ({ s with aKeyState := setState s.aKeyState code KEY_STATE.KEY_RELEASED }, code)
    else (s, code)

/-! ## Initialisation, frame boundary, focus loss -/

/-- `inputInitialise`. -/
def inputInitialise (d : Decls) (s : State) : State :=
  { s with
    aKeyState := forLoop d.KEY_MAXSCAN (fun i a => setState a i KEY_STATE.KEY_UP) s.aKeyState,
    aMouseState := forLoop MOUSE_STATES (fun i a => setState a i KEY_STATE.KEY_UP) s.aMouseState,
    pStartBuffer := 0,
    pEndBuffer := 0,
    pCharStartBuffer := 0,
    pCharEndBuffer := 0,
    dragX := ((s.screenWidth / 2 : Nat) : Int),
    dragY := ((s.screenHeight / 2 : Nat) : Int),
    dragKey := d.MOUSE_LMB }

/-- Body of the keyboard loop of `inputNewFrame`. -/
def newFrameKey (i : Nat) (a : Nat → INPUT_STATE) : Nat → INPUT_STATE :=
  if (a i).state = KEY_STATE.KEY_PRESSED then
    setState a i KEY_STATE.KEY_DOWN
  else if (a i).state = KEY_STATE.KEY_RELEASED ∨
      (a i).state = KEY_STATE.KEY_PRESSRELEASE then
    setState a i KEY_STATE.KEY_UP
  else a

/-- Body of the mouse loop of `inputNewFrame`. -/
def newFrameMouse (i : Nat) (a : Nat → INPUT_STATE) : Nat → INPUT_STATE :=
  if (a i).state = KEY_STATE.KEY_PRESSED then
    setState a i KEY_STATE.KEY_DOWN
  else if (a i).state = KEY_STATE.KEY_RELEASED
      ∨ (a i).state = KEY_STATE.KEY_DOUBLECLICK
      ∨ (a i).state = KEY_STATE.KEY_PRESSRELEASE then
    setState a i KEY_STATE.KEY_UP
  else a

/-- `inputNewFrame`, called once a frame. -/
def inputNewFrame (d : Decls) (s : State) : State :=
  { s with
    aKeyState := forLoop d.KEY_MAXSCAN newFrameKey s.aKeyState,
    aMouseState := forLoop MOUSE_STATES newFrameMouse s.aMouseState }

/-- `inputLooseFocus`: release all keys and buttons. -/
def inputLooseFocus (d : Decls) (s : State) : State :=
  { s with
    aKeyState :=
      forLoop d.KEY_MAXSCAN (fun i a => setState a i KEY_STATE.KEY_RELEASED) s.aKeyState,
    aMouseState :=
      forLoop MOUSE_STATES (fun i a => setState a i KEY_STATE.KEY_RELEASED) s.aMouseState }

/-! ## The input buffer -/

/-- The `while` loop of `inputAddBuffer`, entered with the already computed `pNext`,
`pCharNext`.  The first argument is `count`: the loop stops when it is `0`, and every
iteration decrements it. -/
def inputAddBufferLoop (code char_code : Nat) : Nat → State → Nat → Nat → State
  | 0, s, _, _ => s
  | count + 1, s, pNext, pCharNext =>
    if pNext ≠ s.pStartBuffer then
      let s1 := { s with
        pInputBuffer := Function.update s.pInputBuffer s.pEndBuffer code,
        pCharInputBuffer := Function.update s.pCharInputBuffer s.pCharEndBuffer char_code,
        pEndBuffer := pNext,
        pCharEndBuffer := pCharNext }
      if s1.pEndBuffer + 1 ≥ INPUT_MAXSTR then
        inputAddBufferLoop code char_code count s1 0 0
      else
        inputAddBufferLoop code char_code count s1 (s1.pEndBuffer + 1) (s1.pCharEndBuffer + 1)
    else s

/-- `inputAddBuffer`: add `count` copies of the character code to the input buffer. -/
def inputAddBuffer (s : State) (code char_code count : Nat) : State :=
  if s.pEndBuffer + 1 ≥ INPUT_MAXSTR then
    inputAddBufferLoop code char_code count s 0 0
  else
    inputAddBufferLoop code char_code count s (s.pEndBuffer + 1) (s.pCharEndBuffer + 1)

/-- `inputClearBuffer`. -/
def inputClearBuffer (s : State) : State :=
  { s with pStartBuffer := 0, pEndBuffer := 0, pCharStartBuffer := 0, pCharEndBuffer := 0 }

/-- `inputGetKey`: the next key press or `0` if no key is in the buffer; the returned value
is the second component. -/
def inputGetKey (s : State) : State × Nat :=
  if s.pStartBuffer ≠ s.pEndBuffer then
    let retVal := s.pInputBuffer s.pStartBuffer
    let s1 := { s with
      currentChar := s.pCharInputBuffer s.pCharStartBuffer,
      pStartBuffer := s.pStartBuffer + 1,
      pCharStartBuffer := s.pCharStartBuffer + 1 }
    if s1.pStartBuffer ≥ INPUT_MAXSTR then
      ({ s1 with pStartBuffer := 0, pCharStartBuffer := 0 }, retVal)
    else (s1, retVal)
  else (s, 0)

/-- `inputGetCharKey`. -/
def inputGetCharKey (s : State) : Nat := s.currentChar

/-! ## Runs of the input system -/

/-- The calls that change the key and mouse states, with the data each one receives. -/
inductive Event
  | setKey (code : Nat) (pressed : Bool)
  | mousePressEvent (button : MouseButton) (pressesMid : Bool) (gameTime : Nat)
  | mouseReleaseEvent (button : MouseButton)
  | mouseMoveEvent (x y : Int)
  | wheelEvent (direction : Int) (gameTime : Nat)
  | inputNewFrame
  | inputLooseFocus
  deriving DecidableEq, Repr

/-- Effect of one call on the statics. -/
def step (d : Decls) (s : State) : Event → State
  | Event.setKey code pressed => (setKey s code pressed).1
  | Event.mousePressEvent button pressesMid gameTime =>
      mousePressEvent d s button pressesMid gameTime
  | Event.mouseReleaseEvent button => mouseReleaseEvent d s button
  | Event.mouseMoveEvent x y => mouseMoveEvent d s x y
  | Event.wheelEvent direction gameTime => wheelEvent d s direction gameTime
  | Event.inputNewFrame => inputNewFrame d s
  | Event.inputLooseFocus => inputLooseFocus d s

/-- Effect of a sequence of calls, oldest first. -/
def run (d : Decls) (s : State) (evs : List Event) : State :=
  evs.foldl (step d) s

/-- The event is a `setKey` for key code `c`. -/
def Event.isSetKeyOf (c : Nat) : Event → Bool
  | Event.setKey code _ => decide (code = c)
  | _ => false

/-- The event is a mouse press event that `buttonToIdx` maps to index `b`. -/
def Event.isPressOf (d : Decls) (b : Nat) : Event → Bool
  | Event.mousePressEvent button _ _ => decide (buttonToIdx d button = b)
  | _ => false

/-- The event is a mouse release event that `buttonToIdx` maps to index `b`. -/
def Event.isReleaseOf (d : Decls) (b : Nat) : Event → Bool
  | Event.mouseReleaseEvent button => decide (buttonToIdx d button = b)
  | _ => false

/-- The event is `inputNewFrame`. -/
def Event.isNewFrame : Event → Bool
  | Event.inputNewFrame => true
  | _ => false

/-- The event is `inputLooseFocus`. -/
def Event.isLooseFocus : Event → Bool
  | Event.inputLooseFocus => true
  | _ => false

/-- What one iteration of the keyboard loop of `inputNewFrame` does to the entry it visits. -/
def newFrameKeyEntry (e : INPUT_STATE) : INPUT_STATE :=
  if e.state = KEY_STATE.KEY_PRESSED then { e with state := KEY_STATE.KEY_DOWN }
  else if e.state = KEY_STATE.KEY_RELEASED ∨ e.state = KEY_STATE.KEY_PRESSRELEASE then
    { e with state := KEY_STATE.KEY_UP }
  else e

/-- What one iteration of the mouse loop of `inputNewFrame` does to the entry it visits. -/
def newFrameMouseEntry (e : INPUT_STATE) : INPUT_STATE :=
  if e.state = KEY_STATE.KEY_PRESSED then { e with state := KEY_STATE.KEY_DOWN }
  else if e.state = KEY_STATE.KEY_RELEASED ∨ e.state = KEY_STATE.KEY_DOUBLECLICK
      ∨ e.state = KEY_STATE.KEY_PRESSRELEASE then
    { e with state := KEY_STATE.KEY_UP }
  else e

/-- The states in which `setKey` and `mousePressEvent` accept a press: the key or button
counts as up. -/
def KEY_STATE.acceptsPress : KEY_STATE → Bool
  | KEY_STATE.KEY_UP => true
  | KEY_STATE.KEY_RELEASED => true
  | KEY_STATE.KEY_PRESSRELEASE => true
  | _ => false

/-- The states that a press leaves behind: Pressed, Down, DoubleClick or Drag. -/
def KEY_STATE.isHeld (st : KEY_STATE) : Bool := !st.acceptsPress

/-- The held states that `inputNewFrame` does not take back to Up: Pressed, Down and
Drag. -/
def KEY_STATE.staysHeld : KEY_STATE → Bool
  | KEY_STATE.KEY_PRESSED => true
  | KEY_STATE.KEY_DOWN => true
  | KEY_STATE.KEY_DRAG => true
  | _ => false

/-! ## The buffer read as a queue -/

/-- Number of unread entries: the distance from the read cursor to the write cursor, going
round the ring. -/
def unreadCount (s : State) : Nat :=
  (s.pEndBuffer + INPUT_MAXSTR - s.pStartBuffer) % INPUT_MAXSTR

/-- The unread entries `(code, character)`, oldest first: the cells from the read cursors up
to, not including, the write cursors. -/
def unread (s : State) : List (Nat × Nat) :=
  (List.range (unreadCount s)).map fun i =>
    (s.pInputBuffer ((s.pStartBuffer + i) % INPUT_MAXSTR),
     s.pCharInputBuffer ((s.pCharStartBuffer + i) % INPUT_MAXSTR))

/-- The cursors of the buffer are inside their arrays and the character cursors are at the
same offsets as the code cursors. -/
def BufferOk (s : State) : Prop :=
  s.pStartBuffer < INPUT_MAXSTR ∧ s.pEndBuffer < INPUT_MAXSTR ∧
  s.pCharStartBuffer = s.pStartBuffer ∧ s.pCharEndBuffer = s.pEndBuffer

/-- The calls on the input buffer. -/
inductive BufferCall
  | inputAddBuffer (code char_code count : Nat)
  | inputGetKey
  | inputClearBuffer
  deriving DecidableEq, Repr

/-- Effect of one buffer call on the statics, with the value an `inputGetKey` returns. -/
def callBuffer (s : State) : BufferCall → State × Option Nat
  | BufferCall.inputAddBuffer code char_code count =>
      (inputAddBuffer s code char_code count, none)
  | BufferCall.inputGetKey => ((inputGetKey s).1, some (inputGetKey s).2)
  | BufferCall.inputClearBuffer => (inputClearBuffer s, none)

/-- Effect of a sequence of buffer calls, oldest first, with the list of what each call
returned. -/
def runBuffer (s : State) : List BufferCall → State × List (Option Nat)
  | [] => (s, [])
  | c :: cs =>
    ((runBuffer (callBuffer s c).1 cs).1,
      (callBuffer s c).2 :: (runBuffer (callBuffer s c).1 cs).2)

/-- The queue of the specification, a first-in first-out list of `(code, character)`
pairs of capacity `INPUT_MAXSTR - 1`: adding appends as many of the `count` copies as there
is room for and drops the others, reading takes the oldest entry away and returns its code,
or returns `0` from the empty queue, clearing empties the queue. -/
def fifoCall (q : List (Nat × Nat)) : BufferCall → List (Nat × Nat) × Option Nat
  | BufferCall.inputAddBuffer code char_code count =>
      (q ++ List.replicate (min count (INPUT_MAXSTR - 1 - q.length)) (code, char_code), none)
  | BufferCall.inputGetKey =>
      match q with
      | [] => ([], some 0)
      | e :: rest => (rest, some e.1)
  | BufferCall.inputClearBuffer => ([], none)

/-- The queue of the specification run on a sequence of calls. -/
def fifoRun (q : List (Nat × Nat)) : List BufferCall → List (Nat × Nat) × List (Option Nat)
  | [] => (q, [])
  | c :: cs =>
    ((fifoRun (fifoCall q c).1 cs).1, (fifoCall q c).2 :: (fifoRun (fifoCall q c).1 cs).2)

/-! ## Key events -/

/-- The enumerators of `KEY_CODE` that `wzapp.cpp` names.  The header that declares them,
with their numeric values, is not part of the sources at hand; the values are a parameter
`keyValue : KEY_CODE → Nat` of `realHandleKeyEvent`. -/
inductive KEY_CODE
  | KEY_LCTRL
  | KEY_LSHIFT
  | KEY_RSHIFT
  | KEY_LALT
  | KEY_ESC
  | KEY_BACKSPACE
  | KEY_1
  | KEY_2
  | KEY_3
  | KEY_4
  | KEY_5
  | KEY_6
  | KEY_7
  | KEY_8
  | KEY_9
  | KEY_0
  | KEY_MINUS
  | KEY_EQUALS
  | KEY_TAB
  | KEY_Q
  | KEY_W
  | KEY_E
  | KEY_R
  | KEY_T
  | KEY_Y
  | KEY_U
  | KEY_I
  | KEY_O
  | KEY_P
  | KEY_LBRACE
  | KEY_RBRACE
  | KEY_RETURN
  | KEY_A
  | KEY_S
  | KEY_D
  | KEY_F
  | KEY_G
  | KEY_H
  | KEY_J
  | KEY_K
  | KEY_L
  | KEY_SEMICOLON
  | KEY_QUOTE
  | KEY_BACKQUOTE
  | KEY_BACKSLASH
  | KEY_Z
  | KEY_X
  | KEY_C
  | KEY_V
  | KEY_B
  | KEY_N
  | KEY_M
  | KEY_COMMA
  | KEY_FULLSTOP
  | KEY_FORWARDSLASH
  | KEY_KP_STAR
  | KEY_SPACE
  | KEY_CAPSLOCK
  | KEY_F1
  | KEY_F2
  | KEY_F3
  | KEY_F4
  | KEY_F5
  | KEY_F6
  | KEY_F7
  | KEY_F8
  | KEY_F9
  | KEY_F10
  | KEY_NUMLOCK
  | KEY_SCROLLLOCK
  | KEY_KP_PLUS
  | KEY_F11
  | KEY_F12
  | KEY_HOME
  | KEY_UPARROW
  | KEY_PAGEUP
  | KEY_LEFTARROW
  | KEY_RIGHTARROW
  | KEY_END
  | KEY_DOWNARROW
  | KEY_PAGEDOWN
  | KEY_INSERT
  | KEY_DELETE
  | KEY_KPENTER
  deriving DecidableEq, Repr

/-- The toolkit's key identifiers `Qt::Key_...` that have a case of their own in the switch
of `realHandleKeyEvent`; `Other` stands for every identifier that has none. -/
inductive QtKey
  | Key_Escape
  | Key_Backspace
  | Key_1
  | Key_2
  | Key_3
  | Key_4
  | Key_5
  | Key_6
  | Key_7
  | Key_8
  | Key_9
  | Key_0
  | Key_Minus
  | Key_Equal
  | Key_Tab
  | Key_Q
  | Key_W
  | Key_E
  | Key_R
  | Key_T
  | Key_Y
  | Key_U
  | Key_I
  | Key_O
  | Key_P
  | Key_BracketLeft
  | Key_BracketRight
  | Key_Return
  | Key_A
  | Key_S
  | Key_D
  | Key_F
  | Key_G
  | Key_H
  | Key_J
  | Key_K
  | Key_L
  | Key_Semicolon
  | Key_QuoteDbl
  | Key_Apostrophe
  | Key_Backslash
  | Key_Z
  | Key_X
  | Key_C
  | Key_V
  | Key_B
  | Key_N
  | Key_M
  | Key_Colon
  | Key_Period
  | Key_Slash
  | Key_Asterisk
  | Key_Space
  | Key_CapsLock
  | Key_F1
  | Key_F2
  | Key_F3
  | Key_F4
  | Key_F5
  | Key_F6
  | Key_F7
  | Key_F8
  | Key_F9
  | Key_F10
  | Key_NumLock
  | Key_ScrollLock
  | Key_Plus
  | Key_F11
  | Key_F12
  | Key_Home
  | Key_Up
  | Key_PageUp
  | Key_Left
  | Key_Right
  | Key_End
  | Key_Down
  | Key_PageDown
  | Key_Insert
  | Key_Delete
  | Key_Enter
  | Other (n : Nat)
  deriving Repr

/-- The switch of `realHandleKeyEvent`: the key code that the case of a toolkit key passes
to `setKey`, and `none` for the `default` case. -/
def translateKey : QtKey → Option KEY_CODE
  | QtKey.Key_Escape => some KEY_CODE.KEY_ESC
  | QtKey.Key_Backspace => some KEY_CODE.KEY_BACKSPACE
  | QtKey.Key_1 => some KEY_CODE.KEY_1
  | QtKey.Key_2 => some KEY_CODE.KEY_2
  | QtKey.Key_3 => some KEY_CODE.KEY_3
  | QtKey.Key_4 => some KEY_CODE.KEY_4
  | QtKey.Key_5 => some KEY_CODE.KEY_5
  | QtKey.Key_6 => some KEY_CODE.KEY_6
  | QtKey.Key_7 => some KEY_CODE.KEY_7
  | QtKey.Key_8 => some KEY_CODE.KEY_8
  | QtKey.Key_9 => some KEY_CODE.KEY_9
  | QtKey.Key_0 => some KEY_CODE.KEY_0
  | QtKey.Key_Minus => some KEY_CODE.KEY_MINUS
  | QtKey.Key_Equal => some KEY_CODE.KEY_EQUALS
  | QtKey.Key_Tab => some KEY_CODE.KEY_TAB
  | QtKey.Key_Q => some KEY_CODE.KEY_Q
  | QtKey.Key_W => some KEY_CODE.KEY_W
  | QtKey.Key_E => some KEY_CODE.KEY_E
  | QtKey.Key_R => some KEY_CODE.KEY_R
  | QtKey.Key_T => some KEY_CODE.KEY_T
  | QtKey.Key_Y => some KEY_CODE.KEY_Y
  | QtKey.Key_U => some KEY_CODE.KEY_U
  | QtKey.Key_I => some KEY_CODE.KEY_I
  | QtKey.Key_O => some KEY_CODE.KEY_O
  | QtKey.Key_P => some KEY_CODE.KEY_P
  | QtKey.Key_BracketLeft => some KEY_CODE.KEY_LBRACE
  | QtKey.Key_BracketRight => some KEY_CODE.KEY_RBRACE
  | QtKey.Key_Return => some KEY_CODE.KEY_RETURN
  | QtKey.Key_A => some KEY_CODE.KEY_A
  | QtKey.Key_S => some KEY_CODE.KEY_S
  | QtKey.Key_D => some KEY_CODE.KEY_D
  | QtKey.Key_F => some KEY_CODE.KEY_F
  | QtKey.Key_G => some KEY_CODE.KEY_G
  | QtKey.Key_H => some KEY_CODE.KEY_H
  | QtKey.Key_J => some KEY_CODE.KEY_J
  | QtKey.Key_K => some KEY_CODE.KEY_K
  | QtKey.Key_L => some KEY_CODE.KEY_L
  | QtKey.Key_Semicolon => some KEY_CODE.KEY_SEMICOLON
  | QtKey.Key_QuoteDbl => some KEY_CODE.KEY_QUOTE
  | QtKey.Key_Apostrophe => some KEY_CODE.KEY_BACKQUOTE
  | QtKey.Key_Backslash => some KEY_CODE.KEY_BACKSLASH
  | QtKey.Key_Z => some KEY_CODE.KEY_Z
  | QtKey.Key_X => some KEY_CODE.KEY_X
  | QtKey.Key_C => some KEY_CODE.KEY_C
  | QtKey.Key_V => some KEY_CODE.KEY_V
  | QtKey.Key_B => some KEY_CODE.KEY_B
  | QtKey.Key_N => some KEY_CODE.KEY_N
  | QtKey.Key_M => some KEY_CODE.KEY_M
  | QtKey.Key_Colon => some KEY_CODE.KEY_COMMA
  | QtKey.Key_Period => some KEY_CODE.KEY_FULLSTOP
  | QtKey.Key_Slash => some KEY_CODE.KEY_FORWARDSLASH
  | QtKey.Key_Asterisk => some KEY_CODE.KEY_KP_STAR
  | QtKey.Key_Space => some KEY_CODE.KEY_SPACE
  | QtKey.Key_CapsLock => some KEY_CODE.KEY_CAPSLOCK
  | QtKey.Key_F1 => some KEY_CODE.KEY_F1
  | QtKey.Key_F2 => some KEY_CODE.KEY_F2
  | QtKey.Key_F3 => some KEY_CODE.KEY_F3
  | QtKey.Key_F4 => some KEY_CODE.KEY_F4
  | QtKey.Key_F5 => some KEY_CODE.KEY_F5
  | QtKey.Key_F6 => some KEY_CODE.KEY_F6
  | QtKey.Key_F7 => some KEY_CODE.KEY_F7
  | QtKey.Key_F8 => some KEY_CODE.KEY_F8
  | QtKey.Key_F9 => some KEY_CODE.KEY_F9
  | QtKey.Key_F10 => some KEY_CODE.KEY_F10
  | QtKey.Key_NumLock => some KEY_CODE.KEY_NUMLOCK
  | QtKey.Key_ScrollLock => some KEY_CODE.KEY_SCROLLLOCK
  | QtKey.Key_Plus => some KEY_CODE.KEY_KP_PLUS
  | QtKey.Key_F11 => some KEY_CODE.KEY_F11
  | QtKey.Key_F12 => some KEY_CODE.KEY_F12
  | QtKey.Key_Home => some KEY_CODE.KEY_HOME
  | QtKey.Key_Up => some KEY_CODE.KEY_UPARROW
  | QtKey.Key_PageUp => some KEY_CODE.KEY_PAGEUP
  | QtKey.Key_Left => some KEY_CODE.KEY_LEFTARROW
  | QtKey.Key_Right => some KEY_CODE.KEY_RIGHTARROW
  | QtKey.Key_End => some KEY_CODE.KEY_END
  | QtKey.Key_Down => some KEY_CODE.KEY_DOWNARROW
  | QtKey.Key_PageDown => some KEY_CODE.KEY_PAGEDOWN
  | QtKey.Key_Insert => some KEY_CODE.KEY_INSERT
  | QtKey.Key_Delete => some KEY_CODE.KEY_DELETE
  | QtKey.Key_Enter => some KEY_CODE.KEY_KPENTER
  | QtKey.Other _ => none

/-- `WzMainWindow::realHandleKeyEvent`.  `ctrl`, `shift`, `alt` are
`mods.testFlag(Qt::ControlModifier)`, `mods.testFlag(Qt::ShiftModifier)` and
`mods.testFlag(Qt::AltModifier)`, `key` is `event->key()` and `text` is the character
`event->text().unicode()->toAscii()`.  Every case of the switch is
`lastKey = setKey(KEY_..., pressed)` with the key code of `translateKey`; the `default` case
sets `lastKey = 0` (`event->ignore()` acts on the toolkit's event only). -/
def realHandleKeyEvent (keyValue : KEY_CODE → Nat) (s : State) (ctrl shift alt : Bool)
    (key : QtKey) (text : Nat) (pressed : Bool) : State :=
  let s1 := if ctrl then (setKey s (keyValue KEY_CODE.KEY_LCTRL) pressed).1 else s
  let s2 :=
    if shift then
      (setKey (setKey s1 (keyValue KEY_CODE.KEY_LSHIFT) pressed).1
        (keyValue KEY_CODE.KEY_RSHIFT) pressed).1
    else s1
  let s3 := if alt then (setKey s2 (keyValue KEY_CODE.KEY_LALT) pressed).1 else s2
  let r : State × Nat :=
    match translateKey key with
    | some code => setKey s3 (keyValue code) pressed
    | none => (s3, 0)
  if pressed then inputAddBuffer r.1 r.2 text 1 else r.1

/-- `WzMainWindow::keyReleaseEvent`. -/
def keyReleaseEvent (keyValue : KEY_CODE → Nat) (s : State) (ctrl shift alt : Bool)
    (key : QtKey) (text : Nat) : State :=
  realHandleKeyEvent keyValue s ctrl shift alt key text false

/-- `WzMainWindow::keyPressEvent`. -/
def keyPressEvent (keyValue : KEY_CODE → Nat) (s : State) (ctrl shift alt : Bool)
    (key : QtKey) (text : Nat) : State :=
  realHandleKeyEvent keyValue s ctrl shift alt key text true

/-! ## Concrete data for evaluating the definitions -/

/-- Enumerator values for evaluating the definitions: 323 key codes, and mouse codes that
count up from `MOUSE_LMB = 1` in the order left, middle, right, wheel up, wheel down, bad. -/
def upstreamDecls : Decls :=
  { KEY_MAXSCAN := 323, MOUSE_LMB := 1, MOUSE_MMB := 2, MOUSE_RMB := 3,
    MOUSE_WUP := 4, MOUSE_WDN := 5, MOUSE_BAD := 6 }

/-- Zero-filled statics, with a 640 x 480 screen. -/
def zeroState : State :=
  { aKeyState := fun _ => { state := KEY_STATE.KEY_UP, lastdown := 0 },
    dragKey := 0, dragX := 0, dragY := 0,
    aMouseState := fun _ => { state := KEY_STATE.KEY_UP, lastdown := 0 },
    pInputBuffer := fun _ => 0, pStartBuffer := 0, pEndBuffer := 0,
    pCharInputBuffer := fun _ => 0, pCharStartBuffer := 0, pCharEndBuffer := 0,
    currentChar := 0, mouseXPos := 0, mouseYPos := 0,
    screenWidth := 640, screenHeight := 480 }

/-- A click of the left button at game time 1000, released in the next frame. -/
def leftClick : List Event :=
  [Event.mousePressEvent MouseButton.LeftButton false 1000, Event.inputNewFrame,
    Event.mouseReleaseEvent MouseButton.LeftButton, Event.inputNewFrame]

/-- The middle button is pressed and, while it is held, the left button. -/
def leftPressMidHeld : List Event :=
  [Event.mousePressEvent MouseButton.MidButton true 1000,
    Event.mousePressEvent MouseButton.LeftButton true 1010]

/-- A click of the left button followed by a second click whose press comes 100 ms after
the first press. -/
def leftDoubleClick : List Event :=
  leftClick ++
    [Event.mousePressEvent MouseButton.LeftButton false 1100, Event.inputNewFrame,
      Event.mouseReleaseEvent MouseButton.LeftButton, Event.inputNewFrame]

/-- Key code values for evaluating the definitions: the enumerators of `KEY_CODE` numbered
from 1 in the order in which they are listed. -/
def sampleKeyValue (code : KEY_CODE) : Nat := code.toCtorIdx + 1

/-! ## Theorems -/

/-! ### Loops over the state arrays -/

theorem setState_apply (arr : Nat → INPUT_STATE) (i k : Nat) (st : KEY_STATE) :
    setState arr i st k = if k = i then { arr i with state := st } else arr k := by
  unfold setState
  by_cases h : k = i
  · subst h; simp
  · simp [Function.update_noteq h, h]

theorem setLastdown_apply (arr : Nat → INPUT_STATE) (i k t : Nat) :
    setLastdown arr i t k = if k = i then { arr i with lastdown := t } else arr k := by
  unfold setLastdown
  by_cases h : k = i
  · subst h; simp
  · simp [Function.update_noteq h, h]

/-- A loop whose body rewrites only the entry it visits, as a function of that entry,
rewrites exactly the entries below the bound. -/
theorem forLoop_pointwise (f : INPUT_STATE → INPUT_STATE)
    (body : Nat → (Nat → INPUT_STATE) → Nat → INPUT_STATE)
    (hbody : ∀ i a k, body i a k = if k = i then f (a i) else a k)
    (n : Nat) (a : Nat → INPUT_STATE) (k : Nat) :
    forLoop n body a k = if k < n then f (a k) else a k := by
  induction n generalizing k with
  | zero => simp [forLoop]
  | succ n ih =>
    have hn : forLoop n body a n = a n := by
      rw [ih n]
      simp
    simp only [forLoop, hbody]
    by_cases h : k = n
    · subst h
      simp [hn]
    · rw [if_neg h, ih]
      by_cases h2 : k < n
      · have h3 : k < n + 1 := by omega
        simp [h2, h3]
      · have h3 : ¬ k < n + 1 := by omega
        simp [h2, h3]

theorem forLoop_setState (st : KEY_STATE) (n : Nat) (a : Nat → INPUT_STATE) (k : Nat) :
    forLoop n (fun i a => setState a i st) a k
      = if k < n then { a k with state := st } else a k :=
  forLoop_pointwise (fun e => { e with state := st }) _
    (fun i a k => setState_apply a i k st) n a k

theorem newFrameKey_apply (i : Nat) (a : Nat → INPUT_STATE) (k : Nat) :
    newFrameKey i a k = if k = i then newFrameKeyEntry (a i) else a k := by
  unfold newFrameKey newFrameKeyEntry
  by_cases h : k = i
  · subst h
    rw [if_pos rfl]
    split_ifs <;> simp [setState_apply]
  · rw [if_neg h]
    split_ifs <;> simp [setState_apply, h]

theorem newFrameMouse_apply (i : Nat) (a : Nat → INPUT_STATE) (k : Nat) :
    newFrameMouse i a k = if k = i then newFrameMouseEntry (a i) else a k := by
  unfold newFrameMouse newFrameMouseEntry
  by_cases h : k = i
  · subst h
    rw [if_pos rfl]
    split_ifs <;> simp [setState_apply]
  · rw [if_neg h]
    split_ifs <;> simp [setState_apply, h]

theorem inputNewFrame_aKeyState (d : Decls) (s : State) (k : Nat) :
    (inputNewFrame d s).aKeyState k
      = if k < d.KEY_MAXSCAN then newFrameKeyEntry (s.aKeyState k) else s.aKeyState k := by
  simp only [inputNewFrame]
  exact forLoop_pointwise newFrameKeyEntry newFrameKey newFrameKey_apply d.KEY_MAXSCAN
    s.aKeyState k

theorem inputNewFrame_aMouseState (d : Decls) (s : State) (b : Nat) :
    (inputNewFrame d s).aMouseState b
      = if b < MOUSE_STATES then newFrameMouseEntry (s.aMouseState b) else s.aMouseState b := by
  simp only [inputNewFrame]
  exact forLoop_pointwise newFrameMouseEntry newFrameMouse newFrameMouse_apply MOUSE_STATES
    s.aMouseState b

theorem inputInitialise_aKeyState (d : Decls) (s : State) (k : Nat) :
    (inputInitialise d s).aKeyState k
      = if k < d.KEY_MAXSCAN then { s.aKeyState k with state := KEY_STATE.KEY_UP }
        else s.aKeyState k := by
  simp only [inputInitialise]
  exact forLoop_setState KEY_STATE.KEY_UP d.KEY_MAXSCAN s.aKeyState k

theorem inputInitialise_aMouseState (d : Decls) (s : State) (b : Nat) :
    (inputInitialise d s).aMouseState b
      = if b < MOUSE_STATES then { s.aMouseState b with state := KEY_STATE.KEY_UP }
        else s.aMouseState b := by
  simp only [inputInitialise]
  exact forLoop_setState KEY_STATE.KEY_UP MOUSE_STATES s.aMouseState b

theorem inputLooseFocus_aKeyState (d : Decls) (s : State) (k : Nat) :
    (inputLooseFocus d s).aKeyState k
      = if k < d.KEY_MAXSCAN then { s.aKeyState k with state := KEY_STATE.KEY_RELEASED }
        else s.aKeyState k := by
  simp only [inputLooseFocus]
  exact forLoop_setState KEY_STATE.KEY_RELEASED d.KEY_MAXSCAN s.aKeyState k

theorem inputLooseFocus_aMouseState (d : Decls) (s : State) (b : Nat) :
    (inputLooseFocus d s).aMouseState b
      = if b < MOUSE_STATES then { s.aMouseState b with state := KEY_STATE.KEY_RELEASED }
        else s.aMouseState b := by
  simp only [inputLooseFocus]
  exact forLoop_setState KEY_STATE.KEY_RELEASED MOUSE_STATES s.aMouseState b

theorem newFrameKeyEntry_state (e : INPUT_STATE) :
    (newFrameKeyEntry e).state =
      match e.state with
      | KEY_STATE.KEY_PRESSED => KEY_STATE.KEY_DOWN
      | KEY_STATE.KEY_RELEASED => KEY_STATE.KEY_UP
      | KEY_STATE.KEY_PRESSRELEASE => KEY_STATE.KEY_UP
      | st => st := by
  obtain ⟨st, t⟩ := e
  cases st <;> simp [newFrameKeyEntry]

theorem newFrameMouseEntry_state (e : INPUT_STATE) :
    (newFrameMouseEntry e).state =
      match e.state with
      | KEY_STATE.KEY_PRESSED => KEY_STATE.KEY_DOWN
      | KEY_STATE.KEY_RELEASED => KEY_STATE.KEY_UP
      | KEY_STATE.KEY_DOUBLECLICK => KEY_STATE.KEY_UP
      | KEY_STATE.KEY_PRESSRELEASE => KEY_STATE.KEY_UP
      | st => st := by
  obtain ⟨st, t⟩ := e
  cases st <;> simp [newFrameMouseEntry]

theorem newFrameKeyEntry_lastdown (e : INPUT_STATE) :
    (newFrameKeyEntry e).lastdown = e.lastdown := by
  unfold newFrameKeyEntry
  split_ifs <;> rfl

theorem newFrameMouseEntry_lastdown (e : INPUT_STATE) :
    (newFrameMouseEntry e).lastdown = e.lastdown := by
  unfold newFrameMouseEntry
  split_ifs <;> rfl

/-! ### Frame boundary -/

theorem key_edges_false_after_newFrame (d : Decls) (s : State) (k : Nat)
    (hk : k < d.KEY_MAXSCAN) :
    keyPressed (inputNewFrame d s) k = false ∧ keyReleased (inputNewFrame d s) k = false := by
  have hK := inputNewFrame_aKeyState d s k
  rw [if_pos hk] at hK
  have hK2 := newFrameKeyEntry_state (s.aKeyState k)
  unfold keyPressed keyReleased
  rw [hK, hK2]
  constructor
  · cases (s.aKeyState k).state <;> simp
  · cases (s.aKeyState k).state <;> simp

theorem mouse_edges_false_after_newFrame (d : Decls) (s : State) (b : Nat)
    (hb : b < MOUSE_STATES) :
    mousePressed (inputNewFrame d s) b = false ∧ mouseReleased (inputNewFrame d s) b = false := by
  have hM := inputNewFrame_aMouseState d s b
  rw [if_pos hb] at hM
  have hM2 := newFrameMouseEntry_state (s.aMouseState b)
  unfold mousePressed mouseReleased
  rw [hM, hM2]
  constructor
  · cases (s.aMouseState b).state <;> simp
  · cases (s.aMouseState b).state <;> simp

theorem edges_false_after_newFrame (d : Decls) (s : State) (k b : Nat)
    (hk : k < d.KEY_MAXSCAN) (hb : b < MOUSE_STATES) :
    keyPressed (inputNewFrame d s) k = false ∧ keyReleased (inputNewFrame d s) k = false ∧
    mousePressed (inputNewFrame d s) b = false ∧ mouseReleased (inputNewFrame d s) b = false :=
  ⟨(key_edges_false_after_newFrame d s k hk).1, (key_edges_false_after_newFrame d s k hk).2,
    (mouse_edges_false_after_newFrame d s b hb).1, (mouse_edges_false_after_newFrame d s b hb).2⟩

/-- C1: immediately after `inputNewFrame`, and after any number `n` of further
`inputNewFrame` calls with no event in between, `keyPressed` and `keyReleased` are false
for every key code below `KEY_MAXSCAN`, and `mousePressed` and `mouseReleased` are false
for every mouse index below 6; so no edge-triggered query is true in two consecutive
frames. -/
theorem C1_inputNewFrame_clears_edges (d : Decls) (s : State) (k b n : Nat)
    (hk : k < d.KEY_MAXSCAN) (hb : b < 6) :
    keyPressed ((inputNewFrame d)^[n] (inputNewFrame d s)) k = false ∧
    keyReleased ((inputNewFrame d)^[n] (inputNewFrame d s)) k = false ∧
    mousePressed ((inputNewFrame d)^[n] (inputNewFrame d s)) b = false ∧
    mouseReleased ((inputNewFrame d)^[n] (inputNewFrame d s)) b = false := by
  have h : (inputNewFrame d)^[n] (inputNewFrame d s)
      = inputNewFrame d ((inputNewFrame d)^[n] s) := by
    rw [← Function.iterate_succ_apply, Function.iterate_succ_apply']
  rw [h]
  exact edges_false_after_newFrame d _ k b hk hb

/-- C1 at key 27 and mouse index 1, for a state in which both have just been pressed. -/
theorem C1_inputNewFrame_clears_edges_witness :
    27 < upstreamDecls.KEY_MAXSCAN ∧ 1 < 6 ∧
    keyPressed ((inputNewFrame upstreamDecls)^[1] (inputNewFrame upstreamDecls
      (mousePressEvent upstreamDecls (setKey zeroState 27 true).1
        MouseButton.LeftButton false 1000))) 27 = false ∧
    keyReleased ((inputNewFrame upstreamDecls)^[1] (inputNewFrame upstreamDecls
      (mousePressEvent upstreamDecls (setKey zeroState 27 true).1
        MouseButton.LeftButton false 1000))) 27 = false ∧
    mousePressed ((inputNewFrame upstreamDecls)^[1] (inputNewFrame upstreamDecls
      (mousePressEvent upstreamDecls (setKey zeroState 27 true).1
        MouseButton.LeftButton false 1000))) 1 = false ∧
    mouseReleased ((inputNewFrame upstreamDecls)^[1] (inputNewFrame upstreamDecls
      (mousePressEvent upstreamDecls (setKey zeroState 27 true).1
        MouseButton.LeftButton false 1000))) 1 = false :=
  ⟨by decide, by decide,
    C1_inputNewFrame_clears_edges upstreamDecls _ 27 1 1 (by decide) (by decide)⟩

/-! ### Keyboard -/

theorem setKey_aKeyState_other (s : State) (c c' : Nat) (p : Bool) (h : c' ≠ c) :
    (setKey s c p).1.aKeyState c' = s.aKeyState c' := by
  unfold setKey
  split_ifs <;> simp [setState_apply, setLastdown_apply, h]

theorem setKey_press_state (s : State) (c : Nat) :
    ((setKey s c true).1.aKeyState c).state =
      match (s.aKeyState c).state with
      | KEY_STATE.KEY_UP => KEY_STATE.KEY_PRESSED
      | KEY_STATE.KEY_RELEASED => KEY_STATE.KEY_PRESSED
      | KEY_STATE.KEY_PRESSRELEASE => KEY_STATE.KEY_PRESSED
      | st => st := by
  unfold setKey
  rcases hst : (s.aKeyState c).state <;>
    simp [hst, setState_apply, setLastdown_apply]

theorem setKey_release_state (s : State) (c : Nat) :
    ((setKey s c false).1.aKeyState c).state =
      match (s.aKeyState c).state with
      | KEY_STATE.KEY_PRESSED => KEY_STATE.KEY_PRESSRELEASE
      | KEY_STATE.KEY_DOWN => KEY_STATE.KEY_RELEASED
      | st => st := by
  unfold setKey
  rcases hst : (s.aKeyState c).state <;>
    simp [hst, setState_apply, setLastdown_apply]

/-- C2: keyboard life cycle of a key code `c`: `setKey(c, true)` takes Up to Pressed,
`inputNewFrame` takes Pressed to Down, `setKey(c, false)` takes Down to Released and
Pressed to PressRelease, `inputNewFrame` takes Released and PressRelease to Up; a `setKey`
for `c` leaves the entry of every other key unchanged. -/
theorem C2_key_life_cycle (d : Decls) (s : State) (c : Nat) (hc : c < d.KEY_MAXSCAN) :
    ((s.aKeyState c).state = KEY_STATE.KEY_UP →
      ((setKey s c true).1.aKeyState c).state = KEY_STATE.KEY_PRESSED) ∧
    ((s.aKeyState c).state = KEY_STATE.KEY_PRESSED →
      ((inputNewFrame d s).aKeyState c).state = KEY_STATE.KEY_DOWN) ∧
    ((s.aKeyState c).state = KEY_STATE.KEY_DOWN →
      ((setKey s c false).1.aKeyState c).state = KEY_STATE.KEY_RELEASED) ∧
    ((s.aKeyState c).state = KEY_STATE.KEY_PRESSED →
      ((setKey s c false).1.aKeyState c).state = KEY_STATE.KEY_PRESSRELEASE) ∧
    ((s.aKeyState c).state = KEY_STATE.KEY_RELEASED →
      ((inputNewFrame d s).aKeyState c).state = KEY_STATE.KEY_UP) ∧
    ((s.aKeyState c).state = KEY_STATE.KEY_PRESSRELEASE →
      ((inputNewFrame d s).aKeyState c).state = KEY_STATE.KEY_UP) ∧
    (∀ (pressed : Bool) (c' : Nat), c' ≠ c →
      (setKey s c pressed).1.aKeyState c' = s.aKeyState c') := by
  have hF := inputNewFrame_aKeyState d s c
  rw [if_pos hc] at hF
  have hF2 := newFrameKeyEntry_state (s.aKeyState c)
  have hP := setKey_press_state s c
  have hR := setKey_release_state s c
  refine ⟨?_, ?_, ?_, ?_, ?_, ?_, ?_⟩
  · intro h; rw [hP, h]
  · intro h; rw [hF, hF2, h]
  · intro h; rw [hR, h]
  · intro h; rw [hR, h]
  · intro h; rw [hF, hF2, h]
  · intro h; rw [hF, hF2, h]
  · intro p c' h; exact setKey_aKeyState_other s c c' p h

/-- C2 at key code 27 of the zero-filled state. -/
theorem C2_key_life_cycle_witness :
    27 < upstreamDecls.KEY_MAXSCAN ∧
    ((zeroState.aKeyState 27).state = KEY_STATE.KEY_UP →
      ((setKey zeroState 27 true).1.aKeyState 27).state = KEY_STATE.KEY_PRESSED) ∧
    (zeroState.aKeyState 27).state = KEY_STATE.KEY_UP :=
  ⟨by decide, (C2_key_life_cycle upstreamDecls zeroState 27 (by decide)).1, by decide⟩

/-! ### The input buffer -/

theorem inputAddBuffer_zero (s : State) (code char_code : Nat) :
    inputAddBuffer s code char_code 0 = s := by
  unfold inputAddBuffer
  split_ifs <;> rfl

/-- One pass through the loop of `inputAddBuffer`: either the buffer is full and the call
returns, or one entry is stored and the rest of the call is `inputAddBuffer` with one copy
fewer. -/
theorem inputAddBuffer_succ (s : State) (code char_code count : Nat) :
    inputAddBuffer s code char_code (count + 1) =
      if (if s.pEndBuffer + 1 ≥ INPUT_MAXSTR then 0 else s.pEndBuffer + 1) ≠ s.pStartBuffer then
        inputAddBuffer
          { s with
            pInputBuffer := Function.update s.pInputBuffer s.pEndBuffer code,
            pCharInputBuffer := Function.update s.pCharInputBuffer s.pCharEndBuffer char_code,
            pEndBuffer := if s.pEndBuffer + 1 ≥ INPUT_MAXSTR then 0 else s.pEndBuffer + 1,
            pCharEndBuffer := if s.pEndBuffer + 1 ≥ INPUT_MAXSTR then 0
              else s.pCharEndBuffer + 1 }
          code char_code count
      else s := by
  unfold inputAddBuffer
  by_cases h : s.pEndBuffer + 1 ≥ INPUT_MAXSTR
  · simp only [h, if_true]
    rw [inputAddBufferLoop]
  · simp only [h, if_false]
    rw [inputAddBufferLoop]

theorem unread_length (s : State) : (unread s).length = unreadCount s := by
  simp [unread]

theorem full_iff (s : State) (h : BufferOk s) :
    (if s.pEndBuffer + 1 ≥ INPUT_MAXSTR then 0 else s.pEndBuffer + 1) = s.pStartBuffer
      ↔ unreadCount s = INPUT_MAXSTR - 1 := by
  obtain ⟨h1, h2, -, -⟩ := h
  simp only [unreadCount, INPUT_MAXSTR] at *
  split_ifs <;> omega

theorem unreadCount_le (s : State) (h : BufferOk s) : unreadCount s ≤ INPUT_MAXSTR - 1 := by
  obtain ⟨h1, h2, -, -⟩ := h
  simp only [unreadCount, INPUT_MAXSTR] at *
  omega

/-- Storing one entry when the buffer is not full keeps the cursors in order and appends
the entry behind the unread ones. -/
theorem store_spec (s : State) (code char_code : Nat) (h : BufferOk s)
    (hn : (if s.pEndBuffer + 1 ≥ INPUT_MAXSTR then 0 else s.pEndBuffer + 1) ≠ s.pStartBuffer) :
    BufferOk
      { s with
        pInputBuffer := Function.update s.pInputBuffer s.pEndBuffer code,
        pCharInputBuffer := Function.update s.pCharInputBuffer s.pCharEndBuffer char_code,
        pEndBuffer := if s.pEndBuffer + 1 ≥ INPUT_MAXSTR then 0 else s.pEndBuffer + 1,
        pCharEndBuffer := if s.pEndBuffer + 1 ≥ INPUT_MAXSTR then 0
          else s.pCharEndBuffer + 1 } ∧
    unread
      { s with
        pInputBuffer := Function.update s.pInputBuffer s.pEndBuffer code,
        pCharInputBuffer := Function.update s.pCharInputBuffer s.pCharEndBuffer char_code,
        pEndBuffer := if s.pEndBuffer + 1 ≥ INPUT_MAXSTR then 0 else s.pEndBuffer + 1,
        pCharEndBuffer := if s.pEndBuffer + 1 ≥ INPUT_MAXSTR then 0
          else s.pCharEndBuffer + 1 }
      = unread s ++ [(code, char_code)] := by
  obtain ⟨h1, h2, h3, h4⟩ := h
  constructor
  · refine ⟨h1, ?_, h3, ?_⟩
    · simp only [INPUT_MAXSTR] at *
      split_ifs <;> omega
    · simp only [h4]
  · have hc : (((if s.pEndBuffer + 1 ≥ INPUT_MAXSTR then 0 else s.pEndBuffer + 1)
        + INPUT_MAXSTR - s.pStartBuffer) % INPUT_MAXSTR) = unreadCount s + 1 := by
      simp only [unreadCount, INPUT_MAXSTR] at *
      split_ifs at * <;> omega
    simp only [unread, unreadCount] at hc ⊢
    rw [hc, List.range_succ, List.map_append]
    congr 1
    · apply List.map_congr_left
      intro i hi
      rw [List.mem_range] at hi
      have hne : (s.pStartBuffer + i) % INPUT_MAXSTR ≠ s.pEndBuffer := by
        simp only [INPUT_MAXSTR] at *
        omega
      have hne2 : (s.pCharStartBuffer + i) % INPUT_MAXSTR ≠ s.pCharEndBuffer := by
        rw [h3, h4]; exact hne
      simp only [Function.update_noteq hne, Function.update_noteq hne2]
    · have he : (s.pStartBuffer + (s.pEndBuffer + INPUT_MAXSTR - s.pStartBuffer) % INPUT_MAXSTR)
          % INPUT_MAXSTR = s.pEndBuffer := by
        simp only [INPUT_MAXSTR] at *
        omega
      have he2 : (s.pCharStartBuffer
          + (s.pEndBuffer + INPUT_MAXSTR - s.pStartBuffer) % INPUT_MAXSTR)
          % INPUT_MAXSTR = s.pCharEndBuffer := by
        rw [h3, h4]; exact he
      simp only [List.map_cons, List.map_nil]
      rw [he, he2, Function.update_same, Function.update_same]

/-- Effect of `inputAddBuffer` on a buffer with well-placed cursors. -/
theorem inputAddBuffer_spec (code char_code count : Nat) (s : State) (h : BufferOk s) :
    BufferOk (inputAddBuffer s code char_code count) ∧
    unread (inputAddBuffer s code char_code count)
      = unread s ++ List.replicate (min count (INPUT_MAXSTR - 1 - unreadCount s))
          (code, char_code) ∧
    (unreadCount s = INPUT_MAXSTR - 1 → inputAddBuffer s code char_code count = s) := by
  induction count generalizing s with
  | zero =>
    rw [inputAddBuffer_zero]
    exact ⟨h, by simp, fun _ => rfl⟩
  | succ count ih =>
    rw [inputAddBuffer_succ]
    by_cases hn : (if s.pEndBuffer + 1 ≥ INPUT_MAXSTR then 0 else s.pEndBuffer + 1)
        = s.pStartBuffer
    · have hfull := (full_iff s h).1 hn
      rw [if_neg (not_not.2 hn)]
      refine ⟨h, ?_, fun _ => rfl⟩
      rw [hfull]
      simp
    · have hnf : unreadCount s ≠ INPUT_MAXSTR - 1 := fun hf => hn ((full_iff s h).2 hf)
      have hle := unreadCount_le s h
      rw [if_pos hn]
      obtain ⟨hok, hun⟩ := store_spec s code char_code h hn
      obtain ⟨ih1, ih2, -⟩ := ih _ hok
      refine ⟨ih1, ?_, fun hf => absurd hf hnf⟩
      rw [ih2, hun, List.append_assoc]
      congr 1
      have hlen := congrArg List.length hun
      rw [unread_length, List.length_append, unread_length] at hlen
      simp only [List.length_singleton] at hlen
      rw [hlen]
      have hm : min (count + 1) (INPUT_MAXSTR - 1 - unreadCount s)
          = min count (INPUT_MAXSTR - 1 - (unreadCount s + 1)) + 1 := by
        simp only [INPUT_MAXSTR] at *
        omega
      rw [hm, List.replicate_succ]
      rfl

theorem inputGetKey_eq (s : State) :
    inputGetKey s =
      if s.pStartBuffer ≠ s.pEndBuffer then
        ({ s with
            currentChar := s.pCharInputBuffer s.pCharStartBuffer,
            pStartBuffer := if s.pStartBuffer + 1 ≥ INPUT_MAXSTR then 0 else s.pStartBuffer + 1,
            pCharStartBuffer := if s.pStartBuffer + 1 ≥ INPUT_MAXSTR then 0
              else s.pCharStartBuffer + 1 },
          s.pInputBuffer s.pStartBuffer)
      else (s, 0) := by
  unfold inputGetKey
  by_cases h : s.pStartBuffer = s.pEndBuffer
  · simp [h]
  · by_cases h2 : s.pStartBuffer + 1 ≥ INPUT_MAXSTR
    · simp [h, h2]
    · simp [h, h2]

theorem unread_nil_iff (s : State) (h : BufferOk s) :
    unread s = [] ↔ s.pStartBuffer = s.pEndBuffer := by
  obtain ⟨h1, h2, -, -⟩ := h
  rw [← List.length_eq_zero, unread_length]
  simp only [unreadCount, INPUT_MAXSTR] at *
  omega

/-- Effect of `inputGetKey` on a buffer with well-placed cursors. -/
theorem inputGetKey_spec (s : State) (h : BufferOk s) :
    BufferOk (inputGetKey s).1 ∧
    (unread s = [] → inputGetKey s = (s, 0)) ∧
    (∀ e rest, unread s = e :: rest →
      (inputGetKey s).2 = e.1 ∧ unread (inputGetKey s).1 = rest ∧
      inputGetCharKey (inputGetKey s).1 = e.2) := by
  have hnil := unread_nil_iff s h
  obtain ⟨h1, h2, h3, h4⟩ := h
  rw [inputGetKey_eq]
  by_cases he : s.pStartBuffer = s.pEndBuffer
  · rw [if_neg (not_not.2 he)]
    refine ⟨⟨h1, h2, h3, h4⟩, fun _ => rfl, ?_⟩
    intro e rest hu
    rw [hnil.2 he] at hu
    cases hu
  · rw [if_pos he]
    have hpos : unreadCount s ≠ 0 := by
      simp only [unreadCount, INPUT_MAXSTR] at *
      omega
    obtain ⟨n, hn⟩ := Nat.exists_eq_succ_of_ne_zero hpos
    have hu : unread s = (s.pInputBuffer s.pStartBuffer, s.pCharInputBuffer s.pCharStartBuffer)
        :: unread { s with
            currentChar := s.pCharInputBuffer s.pCharStartBuffer,
            pStartBuffer := if s.pStartBuffer + 1 ≥ INPUT_MAXSTR then 0 else s.pStartBuffer + 1,
            pCharStartBuffer := if s.pStartBuffer + 1 ≥ INPUT_MAXSTR then 0
              else s.pCharStartBuffer + 1 } := by
      have hc : ((s.pEndBuffer + INPUT_MAXSTR
          - (if s.pStartBuffer + 1 ≥ INPUT_MAXSTR then 0 else s.pStartBuffer + 1))
          % INPUT_MAXSTR) = n := by
        simp only [unreadCount, INPUT_MAXSTR] at *
        split_ifs <;> omega
      simp only [unread]
      rw [hn]
      simp only [unreadCount]
      rw [hc, List.range_succ_eq_map, List.map_cons, List.map_map]
      have h0 : (s.pStartBuffer + 0) % INPUT_MAXSTR = s.pStartBuffer := by
        simp only [INPUT_MAXSTR] at *
        omega
      have h0c : (s.pCharStartBuffer + 0) % INPUT_MAXSTR = s.pCharStartBuffer := by
        rw [h3]; exact h0
      rw [h0, h0c]
      congr 1
      apply List.map_congr_left
      intro i _
      have hi : ((if s.pStartBuffer + 1 ≥ INPUT_MAXSTR then 0 else s.pStartBuffer + 1) + i)
          % INPUT_MAXSTR = (s.pStartBuffer + (i + 1)) % INPUT_MAXSTR := by
        simp only [INPUT_MAXSTR] at *
        split_ifs <;> omega
      have hic : ((if s.pStartBuffer + 1 ≥ INPUT_MAXSTR then 0 else s.pCharStartBuffer + 1) + i)
          % INPUT_MAXSTR = (s.pCharStartBuffer + (i + 1)) % INPUT_MAXSTR := by
        rw [h3]; exact hi
      simp only [Function.comp, Nat.succ_eq_add_one]
      rw [hi, hic]
    refine ⟨⟨?_, h2, ?_, h4⟩, ?_, ?_⟩
    · simp only [INPUT_MAXSTR] at *
      split_ifs <;> omega
    · simp only [h3]
    · intro hu0
      rw [hu] at hu0
      cases hu0
    · intro e rest hu2
      rw [hu] at hu2
      cases hu2
      exact ⟨rfl, rfl, rfl⟩

theorem inputClearBuffer_spec (s : State) :
    BufferOk (inputClearBuffer s) ∧ unread (inputClearBuffer s) = [] := by
  constructor
  · simp [BufferOk, inputClearBuffer, INPUT_MAXSTR]
  · simp [unread, unreadCount, inputClearBuffer, INPUT_MAXSTR]

theorem inputInitialise_buffer (d : Decls) (s : State) :
    BufferOk (inputInitialise d s) ∧ unread (inputInitialise d s) = [] := by
  constructor
  · simp [BufferOk, inputInitialise, INPUT_MAXSTR]
  · simp [unread, unreadCount, inputInitialise, INPUT_MAXSTR]

/-- One call on the buffer does to the unread entries what the same call does to the queue
of the specification, and returns the same value. -/
theorem callBuffer_fifoCall (s : State) (h : BufferOk s) (c : BufferCall) :
    BufferOk (callBuffer s c).1 ∧
    unread (callBuffer s c).1 = (fifoCall (unread s) c).1 ∧
    (callBuffer s c).2 = (fifoCall (unread s) c).2 := by
  cases c with
  | inputAddBuffer code char_code count =>
    obtain ⟨a1, a2, -⟩ := inputAddBuffer_spec code char_code count s h
    refine ⟨a1, ?_, rfl⟩
    simp only [callBuffer, fifoCall]
    rw [a2, unread_length]
  | inputGetKey =>
    obtain ⟨g1, g2, g3⟩ := inputGetKey_spec s h
    refine ⟨g1, ?_, ?_⟩
    · simp only [callBuffer, fifoCall]
      cases hu : unread s with
      | nil => simp only [g2 hu]; exact hu
      | cons e rest => exact (g3 e rest hu).2.1
    · simp only [callBuffer, fifoCall]
      cases hu : unread s with
      | nil => simp only [g2 hu]
      | cons e rest => simp only [(g3 e rest hu).1]
  | inputClearBuffer =>
    obtain ⟨c1, c2⟩ := inputClearBuffer_spec s
    exact ⟨c1, c2, rfl⟩

theorem runBuffer_fifoRun (calls : List BufferCall) (s : State) (h : BufferOk s) :
    BufferOk (runBuffer s calls).1 ∧
    unread (runBuffer s calls).1 = (fifoRun (unread s) calls).1 ∧
    (runBuffer s calls).2 = (fifoRun (unread s) calls).2 := by
  induction calls generalizing s with
  | nil => exact ⟨h, rfl, rfl⟩
  | cons c cs ih =>
    obtain ⟨k1, k2, k3⟩ := callBuffer_fifoCall s h c
    obtain ⟨r1, r2, r3⟩ := ih (callBuffer s c).1 k1
    simp only [runBuffer, fifoRun]
    rw [← k2, ← k3]
    exact ⟨r1, r2, by rw [r3]⟩

/-- C3: the input buffer is a FIFO queue.  For every sequence of `inputAddBuffer`,
`inputGetKey` and `inputClearBuffer` calls made after `inputInitialise`, the calls return
what the queue of the specification returns, and the unread entries are the contents of that
queue.  In the state reached, `inputGetKey` returns the code of the oldest unread entry and
removes it, or returns `0` and changes nothing when there is no unread entry, and
`inputClearBuffer` discards all unread entries. -/
theorem C3_buffer_is_fifo (d : Decls) (s0 : State) (calls : List BufferCall) :
    (runBuffer (inputInitialise d s0) calls).2 = (fifoRun [] calls).2 ∧
    unread (runBuffer (inputInitialise d s0) calls).1 = (fifoRun [] calls).1 ∧
    (unread (runBuffer (inputInitialise d s0) calls).1 = [] →
      inputGetKey (runBuffer (inputInitialise d s0) calls).1
        = ((runBuffer (inputInitialise d s0) calls).1, 0)) ∧
    (∀ e rest, unread (runBuffer (inputInitialise d s0) calls).1 = e :: rest →
      (inputGetKey (runBuffer (inputInitialise d s0) calls).1).2 = e.1 ∧
      unread (inputGetKey (runBuffer (inputInitialise d s0) calls).1).1 = rest) ∧
    unread (inputClearBuffer (runBuffer (inputInitialise d s0) calls).1) = [] := by
  obtain ⟨i1, i2⟩ := inputInitialise_buffer d s0
  obtain ⟨r1, r2, r3⟩ := runBuffer_fifoRun calls (inputInitialise d s0) i1
  rw [i2] at r2 r3
  obtain ⟨-, g2, g3⟩ := inputGetKey_spec _ r1
  exact ⟨r3, r2, g2, fun e rest hu => ⟨(g3 e rest hu).1, (g3 e rest hu).2.1⟩,
    (inputClearBuffer_spec _).2⟩

/-- C3 on a run that adds two copies of one entry, one further entry, and reads four
times. -/
theorem C3_buffer_is_fifo_witness :
    (runBuffer (inputInitialise upstreamDecls zeroState)
      [BufferCall.inputAddBuffer 65 97 2, BufferCall.inputAddBuffer 66 98 1,
        BufferCall.inputGetKey, BufferCall.inputGetKey, BufferCall.inputGetKey,
        BufferCall.inputGetKey]).2
      = [none, none, some 65, some 65, some 66, some 0] :=
  (C3_buffer_is_fifo upstreamDecls zeroState _).1.trans (by decide)

/-- C4: in every buffer state reached from `inputInitialise` by buffer calls, holding `n`
unread entries, `inputAddBuffer(code, char, count)` appends exactly
`min(count, INPUT_MAXSTR - 1 - n)` copies of `(code, char)` behind the unread entries, which
stay as they are and in their order, where `INPUT_MAXSTR = 512`; `n` is at most 511, and
when `n = 511` the call changes nothing at all. -/
theorem C4_inputAddBuffer_appends (d : Decls) (s0 : State) (calls : List BufferCall)
    (code char_code count : Nat) :
    unread (inputAddBuffer (runBuffer (inputInitialise d s0) calls).1 code char_code count)
      = unread (runBuffer (inputInitialise d s0) calls).1
        ++ List.replicate
            (min count
              (INPUT_MAXSTR - 1 - (unread (runBuffer (inputInitialise d s0) calls).1).length))
            (code, char_code) ∧
    INPUT_MAXSTR = 512 ∧
    (unread (runBuffer (inputInitialise d s0) calls).1).length ≤ 511 ∧
    ((unread (runBuffer (inputInitialise d s0) calls).1).length = 511 →
      inputAddBuffer (runBuffer (inputInitialise d s0) calls).1 code char_code count
        = (runBuffer (inputInitialise d s0) calls).1) := by
  obtain ⟨i1, -⟩ := inputInitialise_buffer d s0
  obtain ⟨r1, -, -⟩ := runBuffer_fifoRun calls (inputInitialise d s0) i1
  obtain ⟨-, a2, a3⟩ := inputAddBuffer_spec code char_code count _ r1
  rw [unread_length]
  exact ⟨a2, rfl, unreadCount_le _ r1, a3⟩

/-- C4 on a buffer that holds one entry, to which three copies of another are added. -/
theorem C4_inputAddBuffer_appends_witness :
    unread (inputAddBuffer (runBuffer (inputInitialise upstreamDecls zeroState)
        [BufferCall.inputAddBuffer 65 97 1]).1 66 98 3)
      = [(65, 97), (66, 98), (66, 98), (66, 98)] :=
  (C4_inputAddBuffer_appends upstreamDecls zeroState
    [BufferCall.inputAddBuffer 65 97 1] 66 98 3).1.trans (by decide)

/-! ### Runs -/

theorem run_nil (d : Decls) (s : State) : run d s [] = s := rfl

theorem run_cons (d : Decls) (s : State) (e : Event) (evs : List Event) :
    run d s (e :: evs) = run d (step d s e) evs := rfl

theorem run_append (d : Decls) (s : State) (evs1 evs2 : List Event) :
    run d s (evs1 ++ evs2) = run d (run d s evs1) evs2 := by
  simp [run, List.foldl_append]

theorem run_snoc (d : Decls) (s : State) (evs : List Event) (e : Event) :
    run d s (evs ++ [e]) = step d (run d s evs) e := by
  rw [run_append, run_cons, run_nil]

/-! ### What each handler leaves alone -/

theorem setKey_aMouseState (s : State) (c : Nat) (p : Bool) :
    (setKey s c p).1.aMouseState = s.aMouseState := by
  unfold setKey
  split_ifs <;> rfl

theorem mousePressEvent_aKeyState (d : Decls) (s : State) (button : MouseButton)
    (pm : Bool) (t : Nat) :
    (mousePressEvent d s button pm t).aKeyState = s.aKeyState := by
  unfold mousePressEvent
  simp only []
  split_ifs <;> rfl

theorem mouseReleaseEvent_aKeyState (d : Decls) (s : State) (button : MouseButton) :
    (mouseReleaseEvent d s button).aKeyState = s.aKeyState := by
  unfold mouseReleaseEvent
  simp only []
  split_ifs <;> rfl

theorem mouseMoveEvent_aKeyState (d : Decls) (s : State) (x y : Int) :
    (mouseMoveEvent d s x y).aKeyState = s.aKeyState := by
  unfold mouseMoveEvent
  simp only []
  split_ifs <;> rfl

theorem wheelEvent_aKeyState (d : Decls) (s : State) (dir : Int) (t : Nat) :
    (wheelEvent d s dir t).aKeyState = s.aKeyState := by
  unfold wheelEvent
  split_ifs <;> rfl

theorem mousePressEvent_other (d : Decls) (s : State) (button : MouseButton)
    (pm : Bool) (t b : Nat) (h : buttonToIdx d button ≠ b) :
    (mousePressEvent d s button pm t).aMouseState b = s.aMouseState b := by
  have h2 : b ≠ buttonToIdx d button := fun e => h e.symm
  unfold mousePressEvent
  simp only []
  split_ifs <;> simp [setState_apply, setLastdown_apply, h2]

theorem mouseReleaseEvent_other (d : Decls) (s : State) (button : MouseButton)
    (b : Nat) (h : buttonToIdx d button ≠ b) :
    (mouseReleaseEvent d s button).aMouseState b = s.aMouseState b := by
  have h2 : b ≠ buttonToIdx d button := fun e => h e.symm
  unfold mouseReleaseEvent
  simp only []
  split_ifs <;> simp [setState_apply, h2]

/-- A move event leaves every entry of `aMouseState` as it is or changes its state from
Pressed or Down to Drag; time stamps stay. -/
theorem mouseMoveEvent_entry (d : Decls) (s : State) (x y : Int) (b : Nat) :
    (mouseMoveEvent d s x y).aMouseState b = s.aMouseState b ∨
    (((s.aMouseState b).state = KEY_STATE.KEY_PRESSED ∨
        (s.aMouseState b).state = KEY_STATE.KEY_DOWN) ∧
      (mouseMoveEvent d s x y).aMouseState b
        = { s.aMouseState b with state := KEY_STATE.KEY_DRAG }) := by
  unfold mouseMoveEvent
  simp only []
  split_ifs with h1 h2
  · by_cases hb : b = s.dragKey
    · subst hb
      right
      exact ⟨h2.1, by simp [setState_apply]⟩
    · left
      simp [setState_apply, hb]
  · left; rfl
  · left; rfl

/-- A wheel event leaves every entry of `aMouseState` as it is or puts it in state
Pressed. -/
theorem wheelEvent_entry (d : Decls) (s : State) (dir : Int) (t : Nat) (b : Nat) :
    (wheelEvent d s dir t).aMouseState b = s.aMouseState b ∨
    ((b = d.MOUSE_WUP ∨ b = d.MOUSE_WDN) ∧
      ((wheelEvent d s dir t).aMouseState b).state = KEY_STATE.KEY_PRESSED) := by
  unfold wheelEvent
  split_ifs
  · by_cases hb : b = d.MOUSE_WUP
    · right; subst hb; exact ⟨Or.inl rfl, by simp [setState_apply, setLastdown_apply]⟩
    · left; simp [setState_apply, setLastdown_apply, hb]
  · by_cases hb : b = d.MOUSE_WDN
    · right; subst hb; exact ⟨Or.inr rfl, by simp [setState_apply, setLastdown_apply]⟩
    · left; simp [setState_apply, setLastdown_apply, hb]

/-- The state in which a press event leaves the button it is for. -/
theorem mousePressEvent_state (d : Decls) (s : State) (button : MouseButton)
    (pm : Bool) (t : Nat) (hbad : buttonToIdx d button ≠ d.MOUSE_BAD) :
    (mousePressEvent d s button pm t).aMouseState (buttonToIdx d button) =
      if (s.aMouseState (buttonToIdx d button)).state = KEY_STATE.KEY_UP
          ∨ (s.aMouseState (buttonToIdx d button)).state = KEY_STATE.KEY_RELEASED
          ∨ (s.aMouseState (buttonToIdx d button)).state = KEY_STATE.KEY_PRESSRELEASE then
        if pm = false then
          if (t + 4294967296 - (s.aMouseState (buttonToIdx d button)).lastdown) % 4294967296
              < DOUBLE_CLICK_INTERVAL then
            { state := KEY_STATE.KEY_DOUBLECLICK, lastdown := 0 }
          else { state := KEY_STATE.KEY_PRESSED, lastdown := t }
        else { state := KEY_STATE.KEY_PRESSED, lastdown := 0 }
      else s.aMouseState (buttonToIdx d button) := by
  unfold mousePressEvent
  simp only []
  rw [if_neg hbad]
  cases pm <;> split_ifs <;> simp_all [setState_apply, setLastdown_apply]

/-- The state in which a release event leaves the button it is for. -/
theorem mouseReleaseEvent_state (d : Decls) (s : State) (button : MouseButton)
    (hbad : buttonToIdx d button ≠ d.MOUSE_BAD) :
    ((mouseReleaseEvent d s button).aMouseState (buttonToIdx d button)).state =
      match (s.aMouseState (buttonToIdx d button)).state with
      | KEY_STATE.KEY_PRESSED => KEY_STATE.KEY_PRESSRELEASE
      | KEY_STATE.KEY_DOWN => KEY_STATE.KEY_RELEASED
      | KEY_STATE.KEY_DRAG => KEY_STATE.KEY_RELEASED
      | KEY_STATE.KEY_DOUBLECLICK => KEY_STATE.KEY_RELEASED
      | st => st := by
  unfold mouseReleaseEvent
  simp only []
  rw [if_neg hbad]
  rcases hst : (s.aMouseState (buttonToIdx d button)).state <;>
    simp [hst, setState_apply]

/-! ### Held keys -/

theorem isHeld_ne_up (st : KEY_STATE) (h : st.isHeld = true) :
    decide (st ≠ KEY_STATE.KEY_UP) = true := by
  revert h
  cases st <;> simp [KEY_STATE.isHeld, KEY_STATE.acceptsPress]

theorem setKey_press_isHeld (s : State) (c : Nat) :
    ((setKey s c true).1.aKeyState c).state.isHeld = true := by
  rw [setKey_press_state]
  cases (s.aKeyState c).state <;> rfl

theorem newFrameKeyEntry_isHeld (e : INPUT_STATE) (h : e.state.isHeld = true) :
    (newFrameKeyEntry e).state.isHeld = true := by
  rw [newFrameKeyEntry_state]
  revert h
  cases e.state <;> simp [KEY_STATE.isHeld, KEY_STATE.acceptsPress]

theorem step_keeps_key_held (d : Decls) (s : State) (e : Event) (c : Nat)
    (h1 : Event.isSetKeyOf c e = false) (h2 : Event.isLooseFocus e = false)
    (h : (s.aKeyState c).state.isHeld = true) :
    ((step d s e).aKeyState c).state.isHeld = true := by
  cases e with
  | setKey code pressed =>
    have hne : c ≠ code := by
      intro hc
      simp [Event.isSetKeyOf, hc] at h1
    simp only [step]
    rw [setKey_aKeyState_other s code c pressed hne]
    exact h
  | mousePressEvent button pm t =>
    simp only [step]; rw [mousePressEvent_aKeyState]; exact h
  | mouseReleaseEvent button =>
    simp only [step]; rw [mouseReleaseEvent_aKeyState]; exact h
  | mouseMoveEvent x y =>
    simp only [step]; rw [mouseMoveEvent_aKeyState]; exact h
  | wheelEvent dir t =>
    simp only [step]; rw [wheelEvent_aKeyState]; exact h
  | inputNewFrame =>
    simp only [step]
    rw [inputNewFrame_aKeyState]
    split_ifs
    · exact newFrameKeyEntry_isHeld _ h
    · exact h
  | inputLooseFocus => simp [Event.isLooseFocus] at h2

theorem run_keeps_key_held (d : Decls) (c : Nat) (evs : List Event) (s : State)
    (hev : ∀ e ∈ evs, Event.isSetKeyOf c e = false ∧ Event.isLooseFocus e = false)
    (h : (s.aKeyState c).state.isHeld = true) :
    ((run d s evs).aKeyState c).state.isHeld = true := by
  induction evs generalizing s with
  | nil => exact h
  | cons e evs ih =>
    rw [run_cons]
    have he := hev e (List.mem_cons_self e evs)
    exact ih _ (fun e2 h2 => hev e2 (List.mem_cons_of_mem e h2))
      (step_keeps_key_held d s e c he.1 he.2 h)

/-- C7: `keyDown` reports a held key.  In a run from `inputInitialise`, if the most recent
`setKey` event for key code `c` was a press, that is, the events `post` after that press
contain no `setKey` for `c`, and no `inputLooseFocus` came after the press, then
`keyDown(c)` is true, whatever frames, other key events and mouse events `post` holds. -/
theorem C7_keyDown_while_held (d : Decls) (s0 : State) (pre post : List Event) (c : Nat)
    (hpost : ∀ e ∈ post, Event.isSetKeyOf c e = false ∧ Event.isLooseFocus e = false) :
    keyDown (run d (inputInitialise d s0) (pre ++ Event.setKey c true :: post)) c = true := by
  rw [run_append, run_cons]
  have h := run_keeps_key_held d c post _ hpost
    (setKey_press_isHeld (run d (inputInitialise d s0) pre) c)
  exact isHeld_ne_up _ h

/-- C7 on a run in which key 27 is pressed and three frames pass while another key is
pressed and released. -/
theorem C7_keyDown_while_held_witness :
    keyDown (run upstreamDecls (inputInitialise upstreamDecls zeroState)
      ([Event.setKey 27 true, Event.inputNewFrame, Event.setKey 27 false]
        ++ Event.setKey 27 true ::
          [Event.inputNewFrame, Event.setKey 32 true, Event.inputNewFrame,
            Event.setKey 32 false, Event.inputNewFrame])) 27 = true :=
  C7_keyDown_while_held upstreamDecls zeroState _ _ 27 (by decide)

/-! ### Held mouse buttons -/

theorem staysHeld_isHeld (st : KEY_STATE) (h : st.staysHeld = true) : st.isHeld = true := by
  revert h
  cases st <;> simp [KEY_STATE.isHeld, KEY_STATE.acceptsPress, KEY_STATE.staysHeld]

theorem mousePressEvent_isHeld (d : Decls) (s : State) (button : MouseButton)
    (pm : Bool) (t : Nat) (hbad : buttonToIdx d button ≠ d.MOUSE_BAD) :
    ((mousePressEvent d s button pm t).aMouseState (buttonToIdx d button)).state.isHeld
      = true := by
  rw [mousePressEvent_state d s button pm t hbad]
  split_ifs with h1 h2 h3
  · rfl
  · rfl
  · rfl
  · revert h1
    cases (s.aMouseState (buttonToIdx d button)).state <;>
      simp [KEY_STATE.isHeld, KEY_STATE.acceptsPress]

/-- An event that is neither a press nor a release for `b`, nor a focus loss nor a frame
boundary, leaves `b` held if it was. -/
theorem step_keeps_mouse_held (d : Decls) (s : State) (e : Event) (b : Nat)
    (h1 : Event.isPressOf d b e = false) (h2 : Event.isReleaseOf d b e = false)
    (h3 : Event.isLooseFocus e = false) (h4 : Event.isNewFrame e = false)
    (h : (s.aMouseState b).state.isHeld = true) :
    ((step d s e).aMouseState b).state.isHeld = true := by
  cases e with
  | setKey code pressed =>
    simp only [step]; rw [setKey_aMouseState]; exact h
  | mousePressEvent button pm t =>
    have hne : buttonToIdx d button ≠ b := by
      intro hc
      simp [Event.isPressOf, hc] at h1
    simp only [step]; rw [mousePressEvent_other d s button pm t b hne]; exact h
  | mouseReleaseEvent button =>
    have hne : buttonToIdx d button ≠ b := by
      intro hc
      simp [Event.isReleaseOf, hc] at h2
    simp only [step]; rw [mouseReleaseEvent_other d s button b hne]; exact h
  | mouseMoveEvent x y =>
    simp only [step]
    rcases mouseMoveEvent_entry d s x y b with hm | ⟨-, hm⟩
    · rw [hm]; exact h
    · rw [hm]; rfl
  | wheelEvent dir t =>
    simp only [step]
    rcases wheelEvent_entry d s dir t b with hm | ⟨-, hm⟩
    · rw [hm]; exact h
    · rw [hm]; rfl
  | inputNewFrame => simp [Event.isNewFrame] at h4
  | inputLooseFocus => simp [Event.isLooseFocus] at h3

/-- An event that is neither a press nor a release for `b`, nor a focus loss, leaves `b` in
one of the states Pressed, Down, Drag if it was in one of them. -/
theorem step_keeps_mouse_staysHeld (d : Decls) (s : State) (e : Event) (b : Nat)
    (h1 : Event.isPressOf d b e = false) (h2 : Event.isReleaseOf d b e = false)
    (h3 : Event.isLooseFocus e = false)
    (h : (s.aMouseState b).state.staysHeld = true) :
    ((step d s e).aMouseState b).state.staysHeld = true := by
  cases e with
  | setKey code pressed =>
    simp only [step]; rw [setKey_aMouseState]; exact h
  | mousePressEvent button pm t =>
    have hne : buttonToIdx d button ≠ b := by
      intro hc
      simp [Event.isPressOf, hc] at h1
    simp only [step]; rw [mousePressEvent_other d s button pm t b hne]; exact h
  | mouseReleaseEvent button =>
    have hne : buttonToIdx d button ≠ b := by
      intro hc
      simp [Event.isReleaseOf, hc] at h2
    simp only [step]; rw [mouseReleaseEvent_other d s button b hne]; exact h
  | mouseMoveEvent x y =>
    simp only [step]
    rcases mouseMoveEvent_entry d s x y b with hm | ⟨-, hm⟩
    · rw [hm]; exact h
    · rw [hm]; rfl
  | wheelEvent dir t =>
    simp only [step]
    rcases wheelEvent_entry d s dir t b with hm | ⟨-, hm⟩
    · rw [hm]; exact h
    · rw [hm]; rfl
  | inputNewFrame =>
    simp only [step]
    rw [inputNewFrame_aMouseState]
    split_ifs
    · rw [newFrameMouseEntry_state]
      revert h
      cases (s.aMouseState b).state <;> simp [KEY_STATE.staysHeld]
    · exact h
  | inputLooseFocus => simp [Event.isLooseFocus] at h3

theorem run_keeps_mouse_held (d : Decls) (b : Nat) (evs : List Event) (s : State)
    (hev : ∀ e ∈ evs, Event.isPressOf d b e = false ∧ Event.isReleaseOf d b e = false ∧
      Event.isLooseFocus e = false)
    (hnf : ∀ e ∈ evs, Event.isNewFrame e = false)
    (h : (s.aMouseState b).state.isHeld = true) :
    ((run d s evs).aMouseState b).state.isHeld = true := by
  induction evs generalizing s with
  | nil => exact h
  | cons e evs ih =>
    rw [run_cons]
    have he := hev e (List.mem_cons_self e evs)
    exact ih _ (fun e2 h2 => hev e2 (List.mem_cons_of_mem e h2))
      (fun e2 h2 => hnf e2 (List.mem_cons_of_mem e h2))
      (step_keeps_mouse_held d s e b he.1 he.2.1 he.2.2 (hnf e (List.mem_cons_self e evs)) h)

theorem run_keeps_mouse_staysHeld (d : Decls) (b : Nat) (evs : List Event) (s : State)
    (hev : ∀ e ∈ evs, Event.isPressOf d b e = false ∧ Event.isReleaseOf d b e = false ∧
      Event.isLooseFocus e = false)
    (h : (s.aMouseState b).state.staysHeld = true) :
    ((run d s evs).aMouseState b).state.staysHeld = true := by
  induction evs generalizing s with
  | nil => exact h
  | cons e evs ih =>
    rw [run_cons]
    have he := hev e (List.mem_cons_self e evs)
    exact ih _ (fun e2 h2 => hev e2 (List.mem_cons_of_mem e h2))
      (step_keeps_mouse_staysHeld d s e b he.1 he.2.1 he.2.2 h)

/-- C8 as stated fails: after a click of the left button, a second press 100 ms after the
first is the most recent press-or-release event for the left button, no focus loss occurs,
and one frame later `mouseDown` is false for the left button. -/
theorem C8_counterexample :
    (∀ e ∈ [Event.inputNewFrame],
      Event.isPressOf upstreamDecls upstreamDecls.MOUSE_LMB e = false ∧
      Event.isReleaseOf upstreamDecls upstreamDecls.MOUSE_LMB e = false ∧
      Event.isLooseFocus e = false) ∧
    buttonToIdx upstreamDecls MouseButton.LeftButton = upstreamDecls.MOUSE_LMB ∧
    mouseDown (run upstreamDecls (inputInitialise upstreamDecls zeroState)
      (leftClick ++ Event.mousePressEvent MouseButton.LeftButton false 1100
        :: [Event.inputNewFrame])) upstreamDecls.MOUSE_LMB = false := by
  decide

/-- C8, amended: in a run from `inputInitialise`, let a press event for a recognised button
with index `b` be the most recent press-or-release event mapped to `b`, with no
`inputLooseFocus` after it.  Then `mouseDown(b)` is true as long as no `inputNewFrame`
came after the press; and it is true in every later frame as well if the press did not
leave `b` in state DoubleClick. -/
theorem C8_mouseDown_while_held (d : Decls) (s0 : State) (pre post : List Event)
    (button : MouseButton) (pm : Bool) (t : Nat)
    (hbad : buttonToIdx d button ≠ d.MOUSE_BAD)
    (hpost : ∀ e ∈ post, Event.isPressOf d (buttonToIdx d button) e = false ∧
      Event.isReleaseOf d (buttonToIdx d button) e = false ∧ Event.isLooseFocus e = false) :
    ((∀ e ∈ post, Event.isNewFrame e = false) →
      mouseDown (run d (inputInitialise d s0)
        (pre ++ Event.mousePressEvent button pm t :: post)) (buttonToIdx d button) = true) ∧
    (mouseDClicked (run d (inputInitialise d s0)
        (pre ++ [Event.mousePressEvent button pm t])) (buttonToIdx d button) = false →
      mouseDown (run d (inputInitialise d s0)
        (pre ++ Event.mousePressEvent button pm t :: post)) (buttonToIdx d button) = true) := by
  have hheld := mousePressEvent_isHeld d (run d (inputInitialise d s0) pre) button pm t hbad
  constructor
  · intro hnf
    rw [run_append, run_cons]
    exact isHeld_ne_up _ (run_keeps_mouse_held d _ post _ hpost hnf hheld)
  · intro hdc
    rw [run_snoc] at hdc
    rw [run_append, run_cons]
    apply isHeld_ne_up
    apply staysHeld_isHeld
    apply run_keeps_mouse_staysHeld d _ post _ hpost
    simp only [step] at hdc ⊢
    simp only [mouseDClicked, decide_eq_false_iff_not] at hdc
    revert hheld hdc
    cases ((mousePressEvent d (run d (inputInitialise d s0) pre) button pm t).aMouseState
      (buttonToIdx d button)).state <;>
      simp [KEY_STATE.isHeld, KEY_STATE.acceptsPress, KEY_STATE.staysHeld]

/-- C8, amended, on a run in which the left button is pressed once and three frames pass
while the mouse moves and the right button is clicked. -/
theorem C8_mouseDown_while_held_witness :
    mouseDown (run upstreamDecls (inputInitialise upstreamDecls zeroState)
      ([Event.inputNewFrame] ++ Event.mousePressEvent MouseButton.LeftButton false 1000 ::
        [Event.inputNewFrame, Event.mouseMoveEvent 40 40,
          Event.mousePressEvent MouseButton.RightButton false 1020, Event.inputNewFrame,
          Event.mouseReleaseEvent MouseButton.RightButton, Event.inputNewFrame]))
      (buttonToIdx upstreamDecls MouseButton.LeftButton) = true :=
  (C8_mouseDown_while_held upstreamDecls zeroState _ _ MouseButton.LeftButton false 1000
    (by decide) (by decide)).2 (by decide)

/-! ### Where a released button comes from -/

theorem mouseReleased_congr (s1 s2 : State) (b : Nat)
    (h : s1.aMouseState b = s2.aMouseState b) : mouseReleased s1 b = mouseReleased s2 b := by
  simp only [mouseReleased, h]

theorem mouseReleased_of_state (s : State) (b : Nat) (st : KEY_STATE)
    (h : (s.aMouseState b).state = st) (h1 : st ≠ KEY_STATE.KEY_RELEASED)
    (h2 : st ≠ KEY_STATE.KEY_DOUBLECLICK) (h3 : st ≠ KEY_STATE.KEY_PRESSRELEASE) :
    mouseReleased s b = false := by
  simp [mouseReleased, h, h1, h2, h3]

/-- If `mouseReleased(b)` is true after an event that is not a release for `b`, a frame
boundary or a focus loss, then it was true before the event, or the event is a press for
`b` that left `b` in state DoubleClick. -/
theorem step_released_origin (d : Decls) (s : State) (e : Event) (b : Nat)
    (h1 : Event.isReleaseOf d b e = false) (h2 : Event.isLooseFocus e = false)
    (h3 : Event.isNewFrame e = false) (h : mouseReleased (step d s e) b = true) :
    (Event.isPressOf d b e = true ∧ mouseDClicked (step d s e) b = true) ∨
    mouseReleased s b = true := by
  cases e with
  | setKey code pressed =>
    right
    rw [← h]
    exact (mouseReleased_congr _ _ b (by simp only [step]; rw [setKey_aMouseState])).symm
  | mousePressEvent button pm t =>
    by_cases hb : buttonToIdx d button = b
    · by_cases hbad : buttonToIdx d button = d.MOUSE_BAD
      · right
        rw [← h]
        simp only [step, mousePressEvent, hbad, if_true]
      · have hst := mousePressEvent_state d s button pm t hbad
        rw [hb] at hst
        simp only [step] at h ⊢
        by_cases hacc : (s.aMouseState b).state = KEY_STATE.KEY_UP
            ∨ (s.aMouseState b).state = KEY_STATE.KEY_RELEASED
            ∨ (s.aMouseState b).state = KEY_STATE.KEY_PRESSRELEASE
        · rw [if_pos hacc] at hst
          by_cases hpm : pm = false
          · rw [if_pos hpm] at hst
            by_cases hdc : (t + 4294967296 - (s.aMouseState b).lastdown) % 4294967296
                < DOUBLE_CLICK_INTERVAL
            · rw [if_pos hdc] at hst
              left
              exact ⟨by simp [Event.isPressOf, hb], by simp [mouseDClicked, hst]⟩
            · rw [if_neg hdc] at hst
              rw [mouseReleased_of_state _ b KEY_STATE.KEY_PRESSED (by rw [hst])
                (by decide) (by decide) (by decide)] at h
              cases h
          · rw [if_neg hpm] at hst
            rw [mouseReleased_of_state _ b KEY_STATE.KEY_PRESSED (by rw [hst])
              (by decide) (by decide) (by decide)] at h
            cases h
        · rw [if_neg hacc] at hst
          right
          rw [← h]
          exact (mouseReleased_congr _ _ b hst).symm
    · right
      rw [← h]
      exact (mouseReleased_congr _ _ b
        (by simp only [step]; rw [mousePressEvent_other d s button pm t b hb])).symm
  | mouseReleaseEvent button =>
    have hne : buttonToIdx d button ≠ b := by
      intro hc
      simp [Event.isReleaseOf, hc] at h1
    right
    rw [← h]
    exact (mouseReleased_congr _ _ b
      (by simp only [step]; rw [mouseReleaseEvent_other d s button b hne])).symm
  | mouseMoveEvent x y =>
    simp only [step] at h
    rcases mouseMoveEvent_entry d s x y b with hm | ⟨-, hm⟩
    · right
      rw [← h]
      exact (mouseReleased_congr _ _ b hm).symm
    · rw [mouseReleased_of_state _ b KEY_STATE.KEY_DRAG (by rw [hm])
        (by decide) (by decide) (by decide)] at h
      cases h
  | wheelEvent dir t =>
    simp only [step] at h
    rcases wheelEvent_entry d s dir t b with hm | ⟨-, hm⟩
    · right
      rw [← h]
      exact (mouseReleased_congr _ _ b hm).symm
    · rw [mouseReleased_of_state _ b KEY_STATE.KEY_PRESSED hm
        (by decide) (by decide) (by decide)] at h
      cases h
  | inputNewFrame => simp [Event.isNewFrame] at h3
  | inputLooseFocus => simp [Event.isLooseFocus] at h2

/-- C9 as stated fails: after a click of the left button, a second press 100 ms after the
first makes `mouseReleased` true for the left button, although the only event since the
most recent `inputNewFrame` is that press, not a release. -/
theorem C9_counterexample :
    leftClick = [Event.mousePressEvent MouseButton.LeftButton false 1000, Event.inputNewFrame,
      Event.mouseReleaseEvent MouseButton.LeftButton] ++ [Event.inputNewFrame] ∧
    (∀ e ∈ [Event.mousePressEvent MouseButton.LeftButton false 1100],
      Event.isNewFrame e = false ∧
      Event.isReleaseOf upstreamDecls upstreamDecls.MOUSE_LMB e = false) ∧
    mouseReleased (run upstreamDecls (inputInitialise upstreamDecls zeroState)
      (leftClick ++ [Event.mousePressEvent MouseButton.LeftButton false 1100]))
      upstreamDecls.MOUSE_LMB = true := by
  decide

/-- C9, amended: in a run from `inputInitialise` without `inputLooseFocus`, `mouseReleased(b)`
is true for a mouse index `b` below 6 only if, since the most recent `inputNewFrame` (or since
the start if there was none), there was a release event for `b`, or a press event for `b`
that left `b` in state DoubleClick. -/
theorem C9_mouseReleased_origin (d : Decls) (s0 : State) (evs : List Event) (b : Nat)
    (hb : b < 6) (hlf : ∀ e ∈ evs, Event.isLooseFocus e = false)
    (h : mouseReleased (run d (inputInitialise d s0) evs) b = true) :
    ∃ pre e post, evs = pre ++ e :: post ∧ (∀ e2 ∈ post, Event.isNewFrame e2 = false) ∧
      (Event.isReleaseOf d b e = true ∨
        (Event.isPressOf d b e = true ∧
          mouseDClicked (run d (inputInitialise d s0) (pre ++ [e])) b = true)) := by
  have hb2 : b < MOUSE_STATES := hb
  induction evs using List.reverseRecOn with
  | nil =>
    rw [run_nil, mouseReleased_of_state _ b KEY_STATE.KEY_UP
      (by rw [inputInitialise_aMouseState, if_pos hb2]) (by decide) (by decide) (by decide)] at h
    cases h
  | append_singleton evs e ih =>
    rw [run_snoc] at h
    have hlf2 : ∀ e2 ∈ evs, Event.isLooseFocus e2 = false :=
      fun e2 h2 => hlf e2 (List.mem_append_left _ h2)
    have hlfe : Event.isLooseFocus e = false := hlf e (by simp)
    by_cases hrel : Event.isReleaseOf d b e = true
    · exact ⟨evs, e, [], rfl, by simp, Or.inl hrel⟩
    · by_cases hnf : Event.isNewFrame e = true
      · cases e <;> simp [Event.isNewFrame] at hnf
        simp only [step] at h
        rw [(mouse_edges_false_after_newFrame d _ b hb2).2] at h
        cases h
      · rcases step_released_origin d _ e b (by simpa using hrel) hlfe (by simpa using hnf) h
          with ⟨hp, hdc⟩ | hprev
        · exact ⟨evs, e, [], rfl, by simp, Or.inr ⟨hp, by rw [run_snoc]; exact hdc⟩⟩
        · obtain ⟨pre, e1, post, heq, hpost, hor⟩ := ih hlf2 hprev
          refine ⟨pre, e1, post ++ [e], by rw [heq]; simp, ?_, hor⟩
          intro e2 h2
          rcases List.mem_append.1 h2 with h3 | h3
          · exact hpost e2 h3
          · rw [List.mem_singleton.1 h3]; simpa using hnf

/-- C9, amended, on a run in which the left button is released in the current frame. -/
theorem C9_mouseReleased_origin_witness :
    ∃ pre e post,
      [Event.mousePressEvent MouseButton.LeftButton false 1000, Event.inputNewFrame,
        Event.mouseReleaseEvent MouseButton.LeftButton, Event.mouseMoveEvent 3 4]
        = pre ++ e :: post ∧ (∀ e2 ∈ post, Event.isNewFrame e2 = false) ∧
      (Event.isReleaseOf upstreamDecls 1 e = true ∨
        (Event.isPressOf upstreamDecls 1 e = true ∧
          mouseDClicked (run upstreamDecls (inputInitialise upstreamDecls zeroState)
            (pre ++ [e])) 1 = true)) :=
  C9_mouseReleased_origin upstreamDecls zeroState _ 1 (by decide) (by decide) (by decide)

/-! ### Drag detection -/

theorem mouseMoveEvent_eq (d : Decls) (s : State) (x y : Int) :
    (mouseMoveEvent d s x y).aMouseState =
      if mouseDown s d.MOUSE_MMB = false ∧
          ((s.aMouseState s.dragKey).state = KEY_STATE.KEY_PRESSED ∨
            (s.aMouseState s.dragKey).state = KEY_STATE.KEY_DOWN) ∧
          (ABSDIF s.dragX (x % 65536) > DRAG_THRESHOLD ∨
            ABSDIF s.dragY (y % 65536) > DRAG_THRESHOLD) then
        setState s.aMouseState s.dragKey KEY_STATE.KEY_DRAG
      else s.aMouseState := by
  have hx : (((x % 65536).toNat : Nat) : Int) = x % 65536 :=
    Int.toNat_of_nonneg (Int.emod_nonneg x (by decide))
  have hy : (((y % 65536).toNat : Nat) : Int) = y % 65536 :=
    Int.toNat_of_nonneg (Int.emod_nonneg y (by decide))
  unfold mouseMoveEvent
  simp only [mouseDown, hx, hy]
  by_cases h1 : (s.aMouseState d.MOUSE_MMB).state = KEY_STATE.KEY_UP
  · by_cases h2 : ((s.aMouseState s.dragKey).state = KEY_STATE.KEY_PRESSED ∨
          (s.aMouseState s.dragKey).state = KEY_STATE.KEY_DOWN) ∧
        (ABSDIF s.dragX (x % 65536) > DRAG_THRESHOLD ∨
          ABSDIF s.dragY (y % 65536) > DRAG_THRESHOLD)
    · simp [h1, h2]
    · simp [h1, h2]
  · simp [h1]

theorem mouseMoveEvent_drag_fields (d : Decls) (s : State) (x y : Int) :
    (mouseMoveEvent d s x y).dragKey = s.dragKey ∧ (mouseMoveEvent d s x y).dragX = s.dragX ∧
    (mouseMoveEvent d s x y).dragY = s.dragY := by
  unfold mouseMoveEvent
  simp only []
  split_ifs <;> exact ⟨rfl, rfl, rfl⟩

/-- C6 as stated fails: with the middle button held, the left button, which is the drag
button and in state Pressed with press location 0, stays Pressed when the mouse moves to
(100, 100), and `mouseDrag` reports no drag. -/
theorem C6_counterexample :
    (run upstreamDecls (inputInitialise upstreamDecls zeroState) leftPressMidHeld).dragKey
      = upstreamDecls.MOUSE_LMB ∧
    ((run upstreamDecls (inputInitialise upstreamDecls zeroState) leftPressMidHeld).aMouseState
      upstreamDecls.MOUSE_LMB).state = KEY_STATE.KEY_PRESSED ∧
    ABSDIF (run upstreamDecls (inputInitialise upstreamDecls zeroState) leftPressMidHeld).dragX
      100 > DRAG_THRESHOLD ∧
    ((mouseMoveEvent upstreamDecls
      (run upstreamDecls (inputInitialise upstreamDecls zeroState) leftPressMidHeld)
      100 100).aMouseState upstreamDecls.MOUSE_LMB).state = KEY_STATE.KEY_PRESSED ∧
    mouseDrag (mouseMoveEvent upstreamDecls
      (run upstreamDecls (inputInitialise upstreamDecls zeroState) leftPressMidHeld)
      100 100) upstreamDecls.MOUSE_LMB = none := by
  decide

/-- C6, amended: for every `mouseMoveEvent` to position `(x, y)`, stored modulo `2 ^ 16`, the
button recorded as the drag button changes to state Drag if and only if the middle button
is in state Up, the drag button is held (state Pressed or Down) and the stored position
differs from the recorded press location by more than `DRAG_THRESHOLD = 5` in x or in y;
`mouseDrag` then returns the recorded press coordinates; the drag button and press location
stay as recorded, no other button state changes, and when the condition fails no mouse state
changes at all. -/
theorem C6_drag_detection (d : Decls) (s : State) (x y : Int) :
    ((((mouseMoveEvent d s x y).aMouseState s.dragKey).state = KEY_STATE.KEY_DRAG ∧
        (s.aMouseState s.dragKey).state ≠ KEY_STATE.KEY_DRAG) ↔
      (mouseDown s d.MOUSE_MMB = false ∧
        ((s.aMouseState s.dragKey).state = KEY_STATE.KEY_PRESSED ∨
          (s.aMouseState s.dragKey).state = KEY_STATE.KEY_DOWN) ∧
        (ABSDIF s.dragX (x % 65536) > DRAG_THRESHOLD ∨
          ABSDIF s.dragY (y % 65536) > DRAG_THRESHOLD))) ∧
    (((mouseMoveEvent d s x y).aMouseState s.dragKey).state = KEY_STATE.KEY_DRAG →
      mouseDrag (mouseMoveEvent d s x y) s.dragKey
        = some ((s.dragX % 4294967296).toNat, (s.dragY % 4294967296).toNat)) ∧
    (¬ (mouseDown s d.MOUSE_MMB = false ∧
        ((s.aMouseState s.dragKey).state = KEY_STATE.KEY_PRESSED ∨
          (s.aMouseState s.dragKey).state = KEY_STATE.KEY_DOWN) ∧
        (ABSDIF s.dragX (x % 65536) > DRAG_THRESHOLD ∨
          ABSDIF s.dragY (y % 65536) > DRAG_THRESHOLD)) →
      (mouseMoveEvent d s x y).aMouseState = s.aMouseState) ∧
    (∀ b, b ≠ s.dragKey → (mouseMoveEvent d s x y).aMouseState b = s.aMouseState b) ∧
    (mouseMoveEvent d s x y).dragKey = s.dragKey ∧
    (mouseMoveEvent d s x y).dragX = s.dragX ∧
    (mouseMoveEvent d s x y).dragY = s.dragY ∧
    DRAG_THRESHOLD = 5 := by
  have hA := mouseMoveEvent_eq d s x y
  obtain ⟨hk, hX, hY⟩ := mouseMoveEvent_drag_fields d s x y
  refine ⟨?_, ?_, ?_, ?_, hk, hX, hY, rfl⟩
  · constructor
    · rintro ⟨h1, h2⟩
      by_contra hc
      rw [if_neg hc] at hA
      rw [hA] at h1
      exact h2 h1
    · intro hc
      rw [if_pos hc] at hA
      constructor
      · rw [hA]; simp [setState_apply]
      · rcases hc.2.1 with h | h <;> rw [h] <;> decide
  · intro h
    simp only [mouseDrag, h, if_true, hX, hY]
  · intro hc
    rw [hA, if_neg hc]
  · intro b hb
    rw [hA]
    split_ifs
    · simp [setState_apply, hb]
    · rfl

/-- C6, amended, on a left press at position 0 followed by a move to (100, 100): the left
button changes to state Drag. -/
theorem C6_drag_detection_witness :
    ((mouseMoveEvent upstreamDecls
      (run upstreamDecls (inputInitialise upstreamDecls zeroState)
        [Event.mousePressEvent MouseButton.LeftButton false 1000]) 100 100).aMouseState
      (run upstreamDecls (inputInitialise upstreamDecls zeroState)
        [Event.mousePressEvent MouseButton.LeftButton false 1000]).dragKey).state
      = KEY_STATE.KEY_DRAG :=
  ((C6_drag_detection upstreamDecls
    (run upstreamDecls (inputInitialise upstreamDecls zeroState)
      [Event.mousePressEvent MouseButton.LeftButton false 1000]) 100 100).1.2
    (by decide)).1

/-! ### Double clicks -/

theorem mouseReleaseEvent_lastdown (d : Decls) (s : State) (button : MouseButton) (b : Nat) :
    ((mouseReleaseEvent d s button).aMouseState b).lastdown = (s.aMouseState b).lastdown := by
  unfold mouseReleaseEvent
  simp only []
  split_ifs
  · rfl
  · simp only [setState_apply]
    split_ifs with hb
    · rw [hb]
    · rfl
  · simp only [setState_apply]
    split_ifs with hb
    · rw [hb]
    · rfl
  · rfl

/-- Only a press event for `b`, or a wheel event when `b` is a wheel index, changes the
time stamp of `b`. -/
theorem step_keeps_lastdown (d : Decls) (s : State) (e : Event) (b : Nat)
    (h1 : Event.isPressOf d b e = false) (hw : b ≠ d.MOUSE_WUP ∧ b ≠ d.MOUSE_WDN) :
    ((step d s e).aMouseState b).lastdown = (s.aMouseState b).lastdown := by
  cases e with
  | setKey code pressed =>
    simp only [step]; rw [setKey_aMouseState]
  | mousePressEvent button pm t =>
    have hne : buttonToIdx d button ≠ b := by
      intro hc
      simp [Event.isPressOf, hc] at h1
    simp only [step]; rw [mousePressEvent_other d s button pm t b hne]
  | mouseReleaseEvent button =>
    simp only [step]; exact mouseReleaseEvent_lastdown d s button b
  | mouseMoveEvent x y =>
    simp only [step]
    rcases mouseMoveEvent_entry d s x y b with hm | ⟨-, hm⟩
    · rw [hm]
    · rw [hm]
  | wheelEvent dir t =>
    simp only [step]
    rcases wheelEvent_entry d s dir t b with hm | ⟨hm, -⟩
    · rw [hm]
    · rcases hm with hm | hm
      · exact absurd hm hw.1
      · exact absurd hm hw.2
  | inputNewFrame =>
    simp only [step]
    rw [inputNewFrame_aMouseState]
    split_ifs
    · exact newFrameMouseEntry_lastdown _
    · rfl
  | inputLooseFocus =>
    simp only [step]
    rw [inputLooseFocus_aMouseState]
    split_ifs <;> rfl

theorem run_keeps_lastdown (d : Decls) (b : Nat) (evs : List Event) (s : State)
    (hev : ∀ e ∈ evs, Event.isPressOf d b e = false)
    (hw : b ≠ d.MOUSE_WUP ∧ b ≠ d.MOUSE_WDN) :
    ((run d s evs).aMouseState b).lastdown = (s.aMouseState b).lastdown := by
  induction evs generalizing s with
  | nil => rfl
  | cons e evs ih =>
    rw [run_cons, ih _ (fun e2 h2 => hev e2 (List.mem_cons_of_mem e h2))]
    exact step_keeps_lastdown d s e b (hev e (List.mem_cons_self e evs)) hw

theorem acceptsPress_iff (st : KEY_STATE) :
    st.acceptsPress = true ↔
      (st = KEY_STATE.KEY_UP ∨ st = KEY_STATE.KEY_RELEASED ∨ st = KEY_STATE.KEY_PRESSRELEASE) := by
  cases st <;> simp [KEY_STATE.acceptsPress]

set_option maxRecDepth 100000 in
/-- C5 as stated fails: after a double click of the left button (presses at 1000 and 1100),
the left button is Up, and a third press at 1200, which is 100 ms after the previous press
event of the left button, is classified as an ordinary press, not as a double click. -/
theorem C5_counterexample :
    leftDoubleClick =
      [Event.mousePressEvent MouseButton.LeftButton false 1000, Event.inputNewFrame,
        Event.mouseReleaseEvent MouseButton.LeftButton, Event.inputNewFrame,
        Event.mousePressEvent MouseButton.LeftButton false 1100, Event.inputNewFrame,
        Event.mouseReleaseEvent MouseButton.LeftButton, Event.inputNewFrame] ∧
    ((run upstreamDecls (inputInitialise upstreamDecls zeroState)
      leftDoubleClick).aMouseState upstreamDecls.MOUSE_LMB).state = KEY_STATE.KEY_UP ∧
    1200 - 1100 < DOUBLE_CLICK_INTERVAL ∧
    mouseDClicked (run upstreamDecls (inputInitialise upstreamDecls zeroState)
      (leftDoubleClick ++ [Event.mousePressEvent MouseButton.LeftButton false 1200]))
      upstreamDecls.MOUSE_LMB = false ∧
    ((run upstreamDecls (inputInitialise upstreamDecls zeroState)
      (leftDoubleClick ++ [Event.mousePressEvent MouseButton.LeftButton false 1200])).aMouseState
      upstreamDecls.MOUSE_LMB).state = KEY_STATE.KEY_PRESSED := by
  decide

/-- C5, amended: in a run from `inputInitialise`, let a press event of a recognised button
with index `b`, made at game time `t0` while `b` was up and without the middle button held,
be classified as an ordinary press, let the events `mid` after it contain no press event
for `b`, and let `b` be up again after them.  Then a press event for `b` at game time
`t1 ≥ t0` without the middle button held is classified as a double click (state
DoubleClick, `mouseDClicked` true) if and only if `t1 - t0 < DOUBLE_CLICK_INTERVAL = 250`,
and as an ordinary press (state Pressed) otherwise; with the middle button held it is an
ordinary press whatever the times. -/
theorem C5_double_click (d : Decls) (s0 : State) (pre mid : List Event)
    (button0 button1 : MouseButton) (t0 t1 : Nat)
    (hidx : buttonToIdx d button1 = buttonToIdx d button0)
    (hbad : buttonToIdx d button0 ≠ d.MOUSE_BAD)
    (hw : buttonToIdx d button0 ≠ d.MOUSE_WUP ∧ buttonToIdx d button0 ≠ d.MOUSE_WDN)
    (hup0 : ((run d (inputInitialise d s0) pre).aMouseState
      (buttonToIdx d button0)).state.acceptsPress = true)
    (hord : mouseDClicked (run d (inputInitialise d s0)
      (pre ++ [Event.mousePressEvent button0 false t0])) (buttonToIdx d button0) = false)
    (hmid : ∀ e ∈ mid, Event.isPressOf d (buttonToIdx d button0) e = false)
    (hup1 : ((run d (inputInitialise d s0)
      (pre ++ Event.mousePressEvent button0 false t0 :: mid)).aMouseState
      (buttonToIdx d button0)).state.acceptsPress = true)
    (ht : t0 ≤ t1) (ht1 : t1 < 4294967296) :
    (mouseDClicked (run d (inputInitialise d s0)
        ((pre ++ Event.mousePressEvent button0 false t0 :: mid)
          ++ [Event.mousePressEvent button1 false t1])) (buttonToIdx d button0) = true
      ↔ t1 - t0 < DOUBLE_CLICK_INTERVAL) ∧
    (¬ t1 - t0 < DOUBLE_CLICK_INTERVAL →
      ((run d (inputInitialise d s0)
        ((pre ++ Event.mousePressEvent button0 false t0 :: mid)
          ++ [Event.mousePressEvent button1 false t1])).aMouseState
        (buttonToIdx d button0)).state = KEY_STATE.KEY_PRESSED) ∧
    ((run d (inputInitialise d s0)
        ((pre ++ Event.mousePressEvent button0 false t0 :: mid)
          ++ [Event.mousePressEvent button1 true t1])).aMouseState
        (buttonToIdx d button0)).state = KEY_STATE.KEY_PRESSED ∧
    DOUBLE_CLICK_INTERVAL = 250 := by
  -- the first press records `t0`
  have h0 := mousePressEvent_state d (run d (inputInitialise d s0) pre) button0 false t0 hbad
  rw [if_pos ((acceptsPress_iff _).1 hup0), if_pos rfl] at h0
  rw [run_snoc] at hord
  simp only [step, mouseDClicked, decide_eq_false_iff_not] at hord
  have hl0 : ((mousePressEvent d (run d (inputInitialise d s0) pre) button0 false
      t0).aMouseState (buttonToIdx d button0)).lastdown = t0 := by
    split_ifs at h0 with hdc
    · rw [h0] at hord; exact absurd rfl hord
    · rw [h0]
  -- the events in between keep it
  have hl1 : ((run d (inputInitialise d s0)
      (pre ++ Event.mousePressEvent button0 false t0 :: mid)).aMouseState
      (buttonToIdx d button0)).lastdown = t0 := by
    rw [run_append, run_cons, run_keeps_lastdown d _ mid _ hmid hw]
    exact hl0
  have hsub : (t1 + 4294967296 - t0) % 4294967296 = t1 - t0 := by omega
  have hbad1 : buttonToIdx d button1 ≠ d.MOUSE_BAD := by rw [hidx]; exact hbad
  -- the second press
  have hA := mousePressEvent_state d (run d (inputInitialise d s0)
    (pre ++ Event.mousePressEvent button0 false t0 :: mid)) button1 false t1 hbad1
  have hB := mousePressEvent_state d (run d (inputInitialise d s0)
    (pre ++ Event.mousePressEvent button0 false t0 :: mid)) button1 true t1 hbad1
  rw [hidx, if_pos ((acceptsPress_iff _).1 hup1)] at hA hB
  rw [if_pos rfl, hl1, hsub] at hA
  rw [if_neg (by decide)] at hB
  rw [run_snoc, run_snoc]
  simp only [step, mouseDClicked]
  refine ⟨?_, ?_, by rw [hB], rfl⟩
  · by_cases hdc : t1 - t0 < DOUBLE_CLICK_INTERVAL
    · rw [if_pos hdc] at hA
      simp [hA, hdc]
    · rw [if_neg hdc] at hA
      simp [hA, hdc]
  · intro hdc
    rw [if_neg hdc] at hA
    rw [hA]

/-- C5, amended, on a click of the left button at 1000 followed by a press at 1100: the
second press is a double click. -/
theorem C5_double_click_witness :
    mouseDClicked (run upstreamDecls (inputInitialise upstreamDecls zeroState)
      (([] ++ Event.mousePressEvent MouseButton.LeftButton false 1000 ::
          [Event.inputNewFrame, Event.mouseReleaseEvent MouseButton.LeftButton,
            Event.inputNewFrame])
        ++ [Event.mousePressEvent MouseButton.LeftButton false 1100]))
      (buttonToIdx upstreamDecls MouseButton.LeftButton) = true :=
  (C5_double_click upstreamDecls zeroState [] _ MouseButton.LeftButton MouseButton.LeftButton
    1000 1100 rfl (by decide) (by decide) (by decide) (by decide) (by decide) (by decide)
    (by decide) (by decide)).1.2 (by decide)

/-! ### Focus loss -/

/-- C10: after `inputLooseFocus` every key code below `KEY_MAXSCAN` and every mouse index
below 6 is in state Released; after the `inputNewFrame` that follows, every one of them is
in state Up, which is the state `inputInitialise` gives them (from any state `s0`), so
`keyDown` and `mouseDown` are false. -/
theorem C10_focus_loss_releases_all (d : Decls) (s s0 : State) (k b : Nat)
    (hk : k < d.KEY_MAXSCAN) (hb : b < 6) :
    ((inputLooseFocus d s).aKeyState k).state = KEY_STATE.KEY_RELEASED ∧
    ((inputLooseFocus d s).aMouseState b).state = KEY_STATE.KEY_RELEASED ∧
    ((inputNewFrame d (inputLooseFocus d s)).aKeyState k).state = KEY_STATE.KEY_UP ∧
    ((inputNewFrame d (inputLooseFocus d s)).aMouseState b).state = KEY_STATE.KEY_UP ∧
    ((inputNewFrame d (inputLooseFocus d s)).aKeyState k).state
      = ((inputInitialise d s0).aKeyState k).state ∧
    ((inputNewFrame d (inputLooseFocus d s)).aMouseState b).state
      = ((inputInitialise d s0).aMouseState b).state ∧
    keyDown (inputNewFrame d (inputLooseFocus d s)) k = false ∧
    mouseDown (inputNewFrame d (inputLooseFocus d s)) b = false := by
  have hb' : b < MOUSE_STATES := hb
  have h1 : ((inputLooseFocus d s).aKeyState k).state = KEY_STATE.KEY_RELEASED := by
    rw [inputLooseFocus_aKeyState, if_pos hk]
  have h2 : ((inputLooseFocus d s).aMouseState b).state = KEY_STATE.KEY_RELEASED := by
    rw [inputLooseFocus_aMouseState, if_pos hb']
  have h3 : ((inputNewFrame d (inputLooseFocus d s)).aKeyState k).state = KEY_STATE.KEY_UP := by
    rw [inputNewFrame_aKeyState, if_pos hk, newFrameKeyEntry_state, h1]
  have h4 : ((inputNewFrame d (inputLooseFocus d s)).aMouseState b).state
      = KEY_STATE.KEY_UP := by
    rw [inputNewFrame_aMouseState, if_pos hb', newFrameMouseEntry_state, h2]
  have h5 : ((inputInitialise d s0).aKeyState k).state = KEY_STATE.KEY_UP := by
    rw [inputInitialise_aKeyState, if_pos hk]
  have h6 : ((inputInitialise d s0).aMouseState b).state = KEY_STATE.KEY_UP := by
    rw [inputInitialise_aMouseState, if_pos hb']
  refine ⟨h1, h2, h3, h4, by rw [h3, h5], by rw [h4, h6], ?_, ?_⟩
  · simp [keyDown, h3]
  · simp [mouseDown, h4]

/-- C10 at key 27 and mouse index 1, for a state in which both are held. -/
theorem C10_focus_loss_releases_all_witness :
    27 < upstreamDecls.KEY_MAXSCAN ∧ 1 < 6 ∧
    keyDown (inputNewFrame upstreamDecls (inputLooseFocus upstreamDecls
      (mousePressEvent upstreamDecls (setKey zeroState 27 true).1
        MouseButton.LeftButton false 1000))) 27 = false ∧
    mouseDown (inputNewFrame upstreamDecls (inputLooseFocus upstreamDecls
      (mousePressEvent upstreamDecls (setKey zeroState 27 true).1
        MouseButton.LeftButton false 1000))) 1 = false :=
  ⟨by decide, by decide,
    (C10_focus_loss_releases_all upstreamDecls _ zeroState 27 1 (by decide) (by decide)).2.2.2.2.2.2⟩

/-! ### Key events without a case in the switch -/

/-- `inputAddBuffer` touches nothing but the two buffers and their write cursors. -/
theorem inputAddBuffer_frame (code char_code count : Nat) (s : State) :
    (inputAddBuffer s code char_code count).aKeyState = s.aKeyState ∧
    (inputAddBuffer s code char_code count).aMouseState = s.aMouseState ∧
    (inputAddBuffer s code char_code count).pStartBuffer = s.pStartBuffer ∧
    (inputAddBuffer s code char_code count).pCharStartBuffer = s.pCharStartBuffer := by
  induction count generalizing s with
  | zero =>
    rw [inputAddBuffer_zero]
    exact ⟨rfl, rfl, rfl, rfl⟩
  | succ count ih =>
    rw [inputAddBuffer_succ]
    by_cases hn : (if s.pEndBuffer + 1 ≥ INPUT_MAXSTR then 0 else s.pEndBuffer + 1)
        = s.pStartBuffer
    · rw [if_neg (not_not.2 hn)]
      exact ⟨rfl, rfl, rfl, rfl⟩
    · rw [if_pos hn]
      exact ih _

theorem translateKey_other (n : Nat) : translateKey (QtKey.Other n) = none := rfl

/-- Without modifier flags, an event for a key that has no case in the switch is a call
`inputAddBuffer(0, text, 1)` when it is a press, and nothing when it is a release. -/
theorem realHandleKeyEvent_other (keyValue : KEY_CODE → Nat) (s : State) (n text : Nat) :
    realHandleKeyEvent keyValue s false false false (QtKey.Other n) text true
      = inputAddBuffer s 0 text 1 ∧
    realHandleKeyEvent keyValue s false false false (QtKey.Other n) text false = s := by
  constructor <;> simp [realHandleKeyEvent, translateKey]

/-- C11 as stated fails: right after `inputInitialise`, a press event without modifier
flags for a key that has no case in the switch, carrying the character 33, moves the write
cursor of the empty buffer from 0 to 1 and leaves the unread entry `(0, 33)`. -/
theorem C11_counterexample :
    translateKey (QtKey.Other 0) = none ∧
    (inputInitialise upstreamDecls zeroState).pEndBuffer = 0 ∧
    unread (inputInitialise upstreamDecls zeroState) = [] ∧
    (realHandleKeyEvent sampleKeyValue (inputInitialise upstreamDecls zeroState)
      false false false (QtKey.Other 0) 33 true).pEndBuffer = 1 ∧
    unread (realHandleKeyEvent sampleKeyValue (inputInitialise upstreamDecls zeroState)
      false false false (QtKey.Other 0) 33 true) = [(0, 33)] := by
  decide

/-- C11, amended: a key event without Control, Shift or Alt flag for a key that has no case
in the switch leaves every key state unchanged, for a press as for a release.  A release
leaves the whole state unchanged.  A press leaves the read cursors unchanged and appends the
one entry `(0, text)` behind the unread entries of the buffer, unless the buffer is full
(511 unread entries), in which case it leaves the whole state unchanged. -/
theorem C11_unmapped_key (keyValue : KEY_CODE → Nat) (s : State) (n text : Nat)
    (hok : BufferOk s) :
    realHandleKeyEvent keyValue s false false false (QtKey.Other n) text false = s ∧
    (realHandleKeyEvent keyValue s false false false (QtKey.Other n) text true).aKeyState
      = s.aKeyState ∧
    (realHandleKeyEvent keyValue s false false false (QtKey.Other n) text true).pStartBuffer
      = s.pStartBuffer ∧
    (realHandleKeyEvent keyValue s false false false (QtKey.Other n) text true).pCharStartBuffer
      = s.pCharStartBuffer ∧
    unread (realHandleKeyEvent keyValue s false false false (QtKey.Other n) text true)
      = unread s ++ (if (unread s).length < 511 then [(0, text)] else []) ∧
    ((unread s).length = 511 →
      realHandleKeyEvent keyValue s false false false (QtKey.Other n) text true = s) := by
  obtain ⟨hp, hr⟩ := realHandleKeyEvent_other keyValue s n text
  obtain ⟨f1, -, f3, f4⟩ := inputAddBuffer_frame 0 text 1 s
  obtain ⟨-, a2, a3⟩ := inputAddBuffer_spec 0 text 1 s hok
  have hle := unreadCount_le s hok
  rw [hp, unread_length]
  refine ⟨hr, f1, f3, f4, ?_, ?_⟩
  · rw [a2]
    congr 1
    simp only [INPUT_MAXSTR] at hle ⊢
    by_cases hlt : unreadCount s < 511
    · have hm : min 1 (512 - 1 - unreadCount s) = 1 := by omega
      rw [hm, if_pos hlt]
      rfl
    · have hm : min 1 (512 - 1 - unreadCount s) = 0 := by omega
      rw [hm, if_neg hlt]
      rfl
  · intro hfull
    exact a3 (by simp only [INPUT_MAXSTR]; omega)

/-- C11, amended, right after `inputInitialise`. -/
theorem C11_unmapped_key_witness :
    realHandleKeyEvent sampleKeyValue (inputInitialise upstreamDecls zeroState)
      false false false (QtKey.Other 0) 33 false = inputInitialise upstreamDecls zeroState ∧
    unread (realHandleKeyEvent sampleKeyValue (inputInitialise upstreamDecls zeroState)
      false false false (QtKey.Other 0) 33 true)
      = unread (inputInitialise upstreamDecls zeroState)
        ++ (if (unread (inputInitialise upstreamDecls zeroState)).length < 511
            then [(0, 33)] else []) :=
  ⟨(C11_unmapped_key sampleKeyValue (inputInitialise upstreamDecls zeroState) 0 33
      (inputInitialise_buffer upstreamDecls zeroState).1).1,
    (C11_unmapped_key sampleKeyValue (inputInitialise upstreamDecls zeroState) 0 33
      (inputInitialise_buffer upstreamDecls zeroState).1).2.2.2.2.1⟩

/-! ### Mouse buttons without an index -/

/-- C12: a press or release event for a toolkit mouse button that `buttonToIdx` maps to
`MOUSE_BAD` leaves the whole state unchanged, so all mouse states and time stamps, the drag
button and the drag start coordinates stay as they are; `NoButton` and every button other
than left, right, middle, XButton1 and XButton2 are mapped to `MOUSE_BAD`. -/
theorem C12_bad_button_ignored (d : Decls) (s : State) (button : MouseButton) (pm : Bool)
    (t : Nat) (h : buttonToIdx d button = d.MOUSE_BAD) :
    mousePressEvent d s button pm t = s ∧
    mouseReleaseEvent d s button = s ∧
    (∀ b, (mousePressEvent d s button pm t).aMouseState b = s.aMouseState b) ∧
    (∀ b, (mouseReleaseEvent d s button).aMouseState b = s.aMouseState b) ∧
    (mousePressEvent d s button pm t).dragKey = s.dragKey ∧
    (mousePressEvent d s button pm t).dragX = s.dragX ∧
    (mousePressEvent d s button pm t).dragY = s.dragY ∧
    (mouseReleaseEvent d s button).dragKey = s.dragKey ∧
    (mouseReleaseEvent d s button).dragX = s.dragX ∧
    (mouseReleaseEvent d s button).dragY = s.dragY ∧
    buttonToIdx d MouseButton.NoButton = d.MOUSE_BAD ∧
    (∀ n, buttonToIdx d (MouseButton.Other n) = d.MOUSE_BAD) := by
  have hp : mousePressEvent d s button pm t = s := by
    simp only [mousePressEvent, h, if_true]
  have hr : mouseReleaseEvent d s button = s := by
    simp only [mouseReleaseEvent, h, if_true]
  rw [hp, hr]
  exact ⟨rfl, rfl, fun _ => rfl, fun _ => rfl, rfl, rfl, rfl, rfl, rfl, rfl, rfl, fun _ => rfl⟩

/-- C12 for a button outside the five that have an index, while the left button is held. -/
theorem C12_bad_button_ignored_witness :
    mousePressEvent upstreamDecls
      (run upstreamDecls (inputInitialise upstreamDecls zeroState)
        [Event.mousePressEvent MouseButton.LeftButton false 1000])
      (MouseButton.Other 32) false 1010
      = run upstreamDecls (inputInitialise upstreamDecls zeroState)
        [Event.mousePressEvent MouseButton.LeftButton false 1000] :=
  (C12_bad_button_ignored upstreamDecls _ (MouseButton.Other 32) false 1010 rfl).1

/-! ### The transition of a mouse press -/

/-- The 32-bit difference of two `UDWORD` values, as the embedding computes it on natural
numbers, is the difference of the integers reduced modulo `2 ^ 32`. -/
theorem udword_sub (t l : Nat) (ht : t < 4294967296) (hl : l < 4294967296) :
    (((t + 4294967296 - l) % 4294967296 : Nat) : Int) = ((t : Int) - (l : Int)) % 4294967296 := by
  omega

/-- C13: exact transition of `mousePressEvent` for a recognised button index `idx` at game
time `t` (32-bit unsigned).  If the state of `idx` is Up, Released or PressRelease then,
when the middle button is not among the buttons held in the event, the entry becomes
DoubleClick with `lastdown = 0` if `(t - lastdown) mod 2 ^ 32 < 250` and otherwise Pressed
with `lastdown = t`, and when the middle button is held it becomes Pressed with
`lastdown = 0`.  If the state of `idx` is Pressed, Down, DoubleClick or Drag the state
(mouse states, time stamps, drag button, drag coordinates) is unchanged.  In every case the
entries of all other buttons are unchanged. -/
theorem C13_mousePressEvent_transition (d : Decls) (s : State) (button : MouseButton)
    (pm : Bool) (t : Nat) (hbad : buttonToIdx d button ≠ d.MOUSE_BAD)
    (ht : t < 4294967296)
    (hl : (s.aMouseState (buttonToIdx d button)).lastdown < 4294967296) :
    (((s.aMouseState (buttonToIdx d button)).state = KEY_STATE.KEY_UP
        ∨ (s.aMouseState (buttonToIdx d button)).state = KEY_STATE.KEY_RELEASED
        ∨ (s.aMouseState (buttonToIdx d button)).state = KEY_STATE.KEY_PRESSRELEASE) →
      (pm = false →
        ((t : Int) - ((s.aMouseState (buttonToIdx d button)).lastdown : Int)) % 4294967296
          < 250 →
        (mousePressEvent d s button pm t).aMouseState (buttonToIdx d button)
          = { state := KEY_STATE.KEY_DOUBLECLICK, lastdown := 0 }) ∧
      (pm = false →
        ¬ ((t : Int) - ((s.aMouseState (buttonToIdx d button)).lastdown : Int)) % 4294967296
          < 250 →
        (mousePressEvent d s button pm t).aMouseState (buttonToIdx d button)
          = { state := KEY_STATE.KEY_PRESSED, lastdown := t }) ∧
      (pm = true →
        (mousePressEvent d s button pm t).aMouseState (buttonToIdx d button)
          = { state := KEY_STATE.KEY_PRESSED, lastdown := 0 })) ∧
    (((s.aMouseState (buttonToIdx d button)).state = KEY_STATE.KEY_PRESSED
        ∨ (s.aMouseState (buttonToIdx d button)).state = KEY_STATE.KEY_DOWN
        ∨ (s.aMouseState (buttonToIdx d button)).state = KEY_STATE.KEY_DOUBLECLICK
        ∨ (s.aMouseState (buttonToIdx d button)).state = KEY_STATE.KEY_DRAG) →
      mousePressEvent d s button pm t = s) ∧
    (∀ b, b ≠ buttonToIdx d button →
      (mousePressEvent d s button pm t).aMouseState b = s.aMouseState b) := by
  have hst := mousePressEvent_state d s button pm t hbad
  have hsub := udword_sub t _ ht hl
  have hiff : (t + 4294967296 - (s.aMouseState (buttonToIdx d button)).lastdown) % 4294967296
      < DOUBLE_CLICK_INTERVAL ↔
      ((t : Int) - ((s.aMouseState (buttonToIdx d button)).lastdown : Int)) % 4294967296
        < 250 := by
    rw [← hsub]
    simp only [DOUBLE_CLICK_INTERVAL]
    omega
  refine ⟨?_, ?_, ?_⟩
  · intro hup
    rw [if_pos hup] at hst
    refine ⟨?_, ?_, ?_⟩
    · intro hpm hdc
      rw [hst, if_pos hpm, if_pos (hiff.2 hdc)]
    · intro hpm hdc
      rw [hst, if_pos hpm, if_neg (fun h => hdc (hiff.1 h))]
    · intro hpm
      rw [hst, if_neg (by rw [hpm]; decide)]
  · intro hheld
    have hno : ¬ ((s.aMouseState (buttonToIdx d button)).state = KEY_STATE.KEY_UP
        ∨ (s.aMouseState (buttonToIdx d button)).state = KEY_STATE.KEY_RELEASED
        ∨ (s.aMouseState (buttonToIdx d button)).state = KEY_STATE.KEY_PRESSRELEASE) := by
      rcases hheld with h | h | h | h <;> rw [h] <;> decide
    simp only [mousePressEvent, if_neg hbad, if_neg hno]
  · intro b hb
    exact mousePressEvent_other d s button pm t b (fun h => hb h.symm)

/-- C13 on the second press of the left button, 100 ms after the first, in a run from
`inputInitialise`: the entry of the left button becomes DoubleClick with time stamp 0. -/
theorem C13_mousePressEvent_transition_witness :
    (mousePressEvent upstreamDecls
      (run upstreamDecls (inputInitialise upstreamDecls zeroState) leftClick)
      MouseButton.LeftButton false 1100).aMouseState
      (buttonToIdx upstreamDecls MouseButton.LeftButton)
      = { state := KEY_STATE.KEY_DOUBLECLICK, lastdown := 0 } :=
  ((C13_mousePressEvent_transition upstreamDecls
    (run upstreamDecls (inputInitialise upstreamDecls zeroState) leftClick)
    MouseButton.LeftButton false 1100 (by decide) (by decide) (by decide)).1
    (by decide)).1 rfl (by decide)

/-! ### Codes and characters stay paired -/

/-- Every entry of the queue of the specification was in the queue at the start or is the
pair of code and character of one of the `inputAddBuffer` calls. -/
theorem fifoRun_mem (calls : List BufferCall) (q : List (Nat × Nat)) (e : Nat × Nat)
    (h : e ∈ (fifoRun q calls).1) :
    e ∈ q ∨ ∃ count, BufferCall.inputAddBuffer e.1 e.2 count ∈ calls := by
  induction calls generalizing q with
  | nil => exact Or.inl h
  | cons c cs ih =>
    simp only [fifoRun] at h
    rcases ih _ h with h1 | ⟨count, h1⟩
    · cases c with
      | inputAddBuffer code char_code count =>
        simp only [fifoCall] at h1
        rcases List.mem_append.1 h1 with h2 | h2
        · exact Or.inl h2
        · have he := List.eq_of_mem_replicate h2
          right
          refine ⟨count, ?_⟩
          rw [he]
          exact List.mem_cons_self _ _
      | inputGetKey =>
        cases q with
        | nil => simp [fifoCall] at h1
        | cons e0 rest =>
          simp only [fifoCall] at h1
          exact Or.inl (List.mem_cons_of_mem _ h1)
      | inputClearBuffer => simp [fifoCall] at h1
    · exact Or.inr ⟨count, List.mem_cons_of_mem _ h1⟩

/-- C14: in every state reached from `inputInitialise` by `inputAddBuffer`, `inputGetKey` and
`inputClearBuffer` calls, the character read and write cursors are at the same offsets, both
below 512, in `pCharInputBuffer` as the code read and write cursors in `pInputBuffer`; every
unread entry is the pair of code and character of one `inputAddBuffer` call of the run; and
when `inputGetKey` returns the code of the oldest unread entry, `inputGetCharKey` then
returns the character of that same entry. -/
theorem C14_code_and_character_paired (d : Decls) (s0 : State) (calls : List BufferCall) :
    (runBuffer (inputInitialise d s0) calls).1.pCharStartBuffer
      = (runBuffer (inputInitialise d s0) calls).1.pStartBuffer ∧
    (runBuffer (inputInitialise d s0) calls).1.pCharEndBuffer
      = (runBuffer (inputInitialise d s0) calls).1.pEndBuffer ∧
    (runBuffer (inputInitialise d s0) calls).1.pStartBuffer < 512 ∧
    (runBuffer (inputInitialise d s0) calls).1.pEndBuffer < 512 ∧
    (∀ e ∈ unread (runBuffer (inputInitialise d s0) calls).1,
      ∃ count, BufferCall.inputAddBuffer e.1 e.2 count ∈ calls) ∧
    (∀ e rest, unread (runBuffer (inputInitialise d s0) calls).1 = e :: rest →
      (inputGetKey (runBuffer (inputInitialise d s0) calls).1).2 = e.1 ∧
      inputGetCharKey (inputGetKey (runBuffer (inputInitialise d s0) calls).1).1 = e.2) := by
  obtain ⟨i1, i2⟩ := inputInitialise_buffer d s0
  obtain ⟨r1, r2, -⟩ := runBuffer_fifoRun calls (inputInitialise d s0) i1
  rw [i2] at r2
  obtain ⟨-, -, g3⟩ := inputGetKey_spec _ r1
  obtain ⟨b1, b2, b3, b4⟩ := r1
  refine ⟨b3, b4, b1, b2, ?_, fun e rest hu => ⟨(g3 e rest hu).1, (g3 e rest hu).2.2⟩⟩
  intro e he
  rw [r2] at he
  rcases fifoRun_mem calls [] e he with h | h
  · cases h
  · exact h

/-- C14 on a run that stores two entries and reads the first: `inputGetCharKey` returns the
character 97 that was stored with the code 65. -/
theorem C14_code_and_character_paired_witness :
    (inputGetKey (runBuffer (inputInitialise upstreamDecls zeroState)
      [BufferCall.inputAddBuffer 65 97 1, BufferCall.inputAddBuffer 66 98 1]).1).2 = 65 ∧
    inputGetCharKey (inputGetKey (runBuffer (inputInitialise upstreamDecls zeroState)
      [BufferCall.inputAddBuffer 65 97 1, BufferCall.inputAddBuffer 66 98 1]).1).1 = 97 :=
  (C14_code_and_character_paired upstreamDecls zeroState
    [BufferCall.inputAddBuffer 65 97 1, BufferCall.inputAddBuffer 66 98 1]).2.2.2.2.2
    (65, 97) [(66, 98)] (by decide)

end WzApp
